import Mathlib

/- Verification development for the tournament-organizer engine
   (source file: src/Tournament.ts).

   Modelling conventions, used uniformly below:

   * JavaScript objects held in the `players` / `matches` arrays are mutated in
     place through references obtained with `Array.prototype.find`.  The `id`
     field of a player or a match is never reassigned by any operation, so a
     reference is modelled as "the first element of the array with this id":
     reading through the reference is `List.find?` by id, and writing through
     it is `updateFirst` by id.

   * A thrown exception leaves all in-place mutations performed so far in the
     state.  Every operation therefore returns `Tournament × Option String`:
     the state at exit paired with the error, `none` on success.  A field
     access on `undefined` (a JavaScript TypeError) is recorded with the
     error string named `typeErrorMsg`.

   * JavaScript numbers are modelled as `Int` for game-win counts, rounds,
     seeds and player counts, and as `Rat` for point values (`pointsForWin`
     defaults to 1, `pointsForDraw` to 1/2).  `Math.ceil(x / 2)` on an
     integer is `ceilHalf`. -/

namespace TO

/-- Update the first element of a list satisfying `p` by applying `f`;
the rest of the list is unchanged.  This models an in-place write through a
JavaScript reference obtained by `find`. -/
def updateFirst {α : Type} (p : α → Bool) (f : α → α) : List α → List α
  | [] => []
  | x :: xs => if p x then f x :: xs else x :: updateFirst p f xs

/-- Remove the first element of a list satisfying `p`; models
`arr.splice(arr.findIndex(p), 1)` when the element is present. -/
def removeFirst {α : Type} (p : α → Bool) : List α → List α
  | [] => []
  | x :: xs => if p x then xs else x :: removeFirst p xs

/-- `Math.ceil(b / 2)` for an integer `b`. -/
def ceilHalf (b : Int) : Int := (b + 1).fdiv 2

/-- Tournament formats of the source (`format` field). -/
inductive Format
  | singleElim | doubleElim | swiss | roundRobin | doubleRoundRobin
deriving DecidableEq

/-- Tournament lifecycle status. -/
inductive Status
  | registration | active | playoffs | aborted | finished
deriving DecidableEq

/-- Outcome stored in a player's results entry. -/
inductive Outcome
  | win | loss | draw | bye
deriving DecidableEq

/-- The `result` record of a match. -/
structure MatchResult where
  playerOneWins : Int
  playerTwoWins : Int
  draws : Int
deriving DecidableEq

/-- A match record (class `Match`): two player slots (`none` = empty),
round number, ordinal within the round, active flag, result, and the two
elimination routing edges. -/
structure Match where
  id : String
  round : Int
  matchNumber : Int
  playerOne : Option String
  playerTwo : Option String
  active : Bool
  result : MatchResult
  winnersPath : Option String
  losersPath : Option String
deriving DecidableEq

/-- One entry of a player's `results` history (field `match` of the source is
`matchId` here). -/
structure PlayerResult where
  matchId : String
  round : Int
  opponent : Option String
  outcome : Outcome
  matchPoints : Rat
  gamePoints : Rat
  games : Int
deriving DecidableEq

/-- A player record (class `Player`): identity, scoreboard, flags and
results history (field `alias` of the source is `aliasName` here). -/
structure Player where
  id : String
  aliasName : String
  seed : Int
  initialByes : Int
  matchCount : Int
  matchPoints : Rat
  gameCount : Int
  gamePoints : Rat
  active : Bool
  pairingBye : Bool
  results : List PlayerResult
deriving DecidableEq

/-- The tournament state.  Configuration fields not read by any modelled
operation (`sorting`, `consolation`, `cut`, `playoffs`, `tiebreakers`,
`startTime`) are omitted; every field below is read or written by the
operations formalised in this file. -/
structure Tournament where
  id : String
  name : String
  format : Format
  playerLimit : Int
  pointsForWin : Rat
  pointsForDraw : Rat
  currentRound : Int
  players : List Player
  matchList : List Match
  status : Status
  rounds : Int
  bestOf : Int
  double : Bool
deriving DecidableEq

/-- First match with the given id (a JavaScript reference into `matches`). -/
def getMatch (t : Tournament) (mid : String) : Option Match :=
  t.matchList.find? (fun m => decide (m.id = mid))

/-- First player with the given id (a JavaScript reference into `players`). -/
def getPlayer (t : Tournament) (pid : String) : Option Player :=
  t.players.find? (fun p => decide (p.id = pid))

/-- `players.find(p => p.id === slot)` where `slot` may be `null`:
comparing a string id against `null` never succeeds. -/
def getPlayerOpt (t : Tournament) : Option String → Option Player
  | none => none
  | some pid => getPlayer t pid

/-- Write through a match reference: update the first match with this id. -/
def setMatch (t : Tournament) (mid : String) (f : Match → Match) : Tournament :=
  { t with matchList := updateFirst (fun m => decide (m.id = mid)) f t.matchList }

/-- Write through a player reference: update the first player with this id. -/
def setPlayer (t : Tournament) (pid : String) (f : Player → Player) : Tournament :=
  { t with players := updateFirst (fun p => decide (p.id = pid)) f t.players }

/-- Error message standing for a JavaScript TypeError (field access on
`undefined`). -/
def typeErrorMsg : String := "TypeError"

/-- The source string of a `status` value (the lowercase literals of the
source). -/
def statusString : Status → String
  | Status.registration => "registration"
  | Status.active => "active"
  | Status.playoffs => "playoffs"
  | Status.aborted => "aborted"
  | Status.finished => "finished"

/-- The source string of a `format` value. -/
def formatString : Format → String
  | Format.singleElim => "single elimination"
  | Format.doubleElim => "double elimination"
  | Format.swiss => "swiss"
  | Format.roundRobin => "round robin"
  | Format.doubleRoundRobin => "double round robin"

/-- Message of `Tournament.standardResult` / `eliminationResult` when the
match id is unknown. -/
def noMatchMsg (mid : String) : String :=
  "No match found with the ID " ++ mid ++ "."

/-- Append a freshly pushed results entry to a player and update the
scoreboard, exactly as the four `push`-then-increment blocks of
`standardResult` / `eliminationResult` do. -/
def applyResultEntry (p : Player) (e : PlayerResult) : Player :=
  { p with
    results := p.results ++ [e],
    matchCount := p.matchCount + 1,
    matchPoints := p.matchPoints + e.matchPoints,
    gameCount := p.gameCount + e.games,
    gamePoints := p.gamePoints + e.gamePoints }

/-- The entry pushed to player one by `Tournament.standardResult`. -/
def stdEntryOne (pfw pfd : Rat) (m : Match) (w1 w2 d : Int) : PlayerResult :=
  { matchId := m.id, round := m.round, opponent := m.playerTwo,
    outcome := if w1 > w2 then Outcome.win else if w2 > w1 then Outcome.loss else Outcome.draw,
    matchPoints := if w1 > w2 then pfw else if w2 > w1 then 0 else pfd,
    gamePoints := (w1 : Rat) * pfw + (d : Rat) * pfd,
    games := w1 + w2 + d }

/-- The entry pushed to player two by `Tournament.standardResult`. -/
def stdEntryTwo (pfw pfd : Rat) (m : Match) (w1 w2 d : Int) : PlayerResult :=
  { matchId := m.id, round := m.round, opponent := m.playerOne,
    outcome := if w2 > w1 then Outcome.win else if w1 > w2 then Outcome.loss else Outcome.draw,
    matchPoints := if w2 > w1 then pfw else if w1 > w2 then 0 else pfd,
    gamePoints := (w2 : Rat) * pfw + (d : Rat) * pfd,
    games := w1 + w2 + d }

/-- The entry pushed to player one by `Tournament.eliminationResult`. -/
def elimEntryOne (pfw : Rat) (m : Match) (w1 w2 : Int) : PlayerResult :=
  { matchId := m.id, round := m.round, opponent := m.playerTwo,
    outcome := if w1 > w2 then Outcome.win else Outcome.loss,
    matchPoints := if w1 > w2 then pfw else 0,
    gamePoints := (w1 : Rat) * pfw,
    games := w1 + w2 }

/-- The entry pushed to player two by `Tournament.eliminationResult`. -/
def elimEntryTwo (pfw : Rat) (m : Match) (w1 w2 : Int) : PlayerResult :=
  { matchId := m.id, round := m.round, opponent := m.playerOne,
    outcome := if w2 > w1 then Outcome.win else Outcome.loss,
    matchPoints := if w2 > w1 then pfw else 0,
    gamePoints := (w2 : Rat) * pfw,
    games := w1 + w2 }

/-- Player update performed for player one by `standardResult`:
reactivate, push the entry, bump the scoreboard. -/
def stdUpdateOne (pfw pfd : Rat) (m : Match) (w1 w2 d : Int) (q : Player) : Player :=
  applyResultEntry { q with active := true } (stdEntryOne pfw pfd m w1 w2 d)

/-- Player update performed for player two by `standardResult`. -/
def stdUpdateTwo (pfw pfd : Rat) (m : Match) (w1 w2 d : Int) (q : Player) : Player :=
  applyResultEntry { q with active := true } (stdEntryTwo pfw pfd m w1 w2 d)

/-- Match update performed by `standardResult`: write the result triple and
deactivate. -/
def stdMatchWrite (w1 w2 d : Int) (mm : Match) : Match :=
  { mm with result := { playerOneWins := w1, playerTwoWins := w2, draws := d }, active := false }

/-- Match update performed by `Tournament.eraseResult`: reactivate and zero
the result. -/
def eraseMatchReset (mm : Match) : Match :=
  { mm with active := true, result := { playerOneWins := 0, playerTwoWins := 0, draws := 0 } }

/-- Undo one results entry on a player, as the two fix-up blocks of
`Tournament.eraseResult` do: decrement `matchCount`, subtract the entry's
points and games, and splice the first entry with this match id out of
`results`. -/
def eraseRemoveEntry (p : Player) (e : PlayerResult) : Player :=
  { p with
    matchCount := p.matchCount - 1,
    matchPoints := p.matchPoints - e.matchPoints,
    gamePoints := p.gamePoints - e.gamePoints,
    gameCount := p.gameCount - e.games,
    results := removeFirst (fun r => decide (r.matchId = e.matchId)) p.results }

/-- `Tournament.eraseResult` (static, lines 431-469): reset a reported
match and revert both participants' scoreboards.  The match argument is the
reference obtained by the caller.  Error paths keep the mutations already
performed, as the in-place source does:

* unknown participant: the match has already been reset;
* participant without a results entry for this match: `matchCount` has
  already been decremented when the TypeError fires. -/
def eraseResultCore (t : Tournament) (m : Match) : Tournament × Option String :=
  if m.active = true then
    (t, some ("Can only erase results from matches that have been reported."))
  else
    match m.playerOne, m.playerTwo with
    | some p1id, some p2id =>
      let t1 := setMatch t m.id eraseMatchReset
      match getPlayer t1 p1id with
      | none => (t1, some typeErrorMsg)
      | some p1 =>
        match p1.results.find? (fun r => decide (r.matchId = m.id)) with
        | none => (setPlayer t1 p1id (fun q => { q with matchCount := q.matchCount - 1 }), some typeErrorMsg)
        | some e1 =>
          let t2 := setPlayer t1 p1id (fun q => eraseRemoveEntry q e1)
          match getPlayer t2 p2id with
          | none => (t2, some typeErrorMsg)
          | some p2 =>
            match p2.results.find? (fun r => decide (r.matchId = m.id)) with
            | none => (setPlayer t2 p2id (fun q => { q with matchCount := q.matchCount - 1 }), some typeErrorMsg)
            | some e2 => (setPlayer t2 p2id (fun q => eraseRemoveEntry q e2), none)
    | _, _ => (t, some ("Can't erase results from byes or assigned losses."))

/-- Continuation of `Tournament.standardResult` after the possible erase of
an already-reported result: look the participants up, reactivate them, push
the two entries and write the match result. -/
def standardResultApply (t : Tournament) (m : Match) (w1 w2 d : Int) : Tournament × Option String :=
  match getPlayerOpt t m.playerOne with
  | none => (t, some typeErrorMsg)
  | some p1 =>
    match getPlayerOpt t m.playerTwo with
    | none => (setPlayer t p1.id (fun q => { q with active := true }), some typeErrorMsg)
    | some p2 =>
      let t1 := setPlayer t p1.id (stdUpdateOne t.pointsForWin t.pointsForDraw m w1 w2 d)
      let t2 := setPlayer t1 p2.id (stdUpdateTwo t.pointsForWin t.pointsForDraw m w1 w2 d)
      let t3 := setMatch t2 m.id (stdMatchWrite w1 w2 d)
      (t3, none)

/-- `Tournament.standardResult` (lines 367-423): record a swiss /
round-robin result, erasing a previously reported result first when the
match is no longer active. -/
def standardResult (t : Tournament) (mid : String) (w1 w2 d : Int) : Tournament × Option String :=
  match getMatch t mid with
  | none => (t, some (noMatchMsg mid))
  | some m =>
    if m.active = true then standardResultApply t m w1 w2 d
    else
      match eraseResultCore t m with
      | (t', some e) => (t', some e)
      | (t', none) => standardResultApply t' (eraseMatchReset m) w1 w2 d

/-- The pull-back block shared verbatim by `Tournament.eliminationResult`
(lines 258-287) and `Swiss.eraseResult` / `RoundRobin.eraseResult`
(playoffs branch): reactivate the former winner and loser of an
already-reported elimination match and withdraw them from the downstream
matches they were advanced into.  Note that the former loser is reactivated
a second time when `losersPath` is `null`, and that a `null` or unknown
`winnersPath` raises a TypeError after the two reactivations. -/
def elimPullback (t : Tournament) (m : Match) : Tournament × Option String :=
  let p1o := getPlayerOpt t m.playerOne
  let p2o := getPlayerOpt t m.playerTwo
  let fwo := if m.result.playerOneWins > m.result.playerTwoWins then p1o else p2o
  let flo := if m.result.playerOneWins > m.result.playerTwoWins then p2o else p1o
  match fwo with
  | none => (t, some typeErrorMsg)
  | some fw =>
    let tA := setPlayer t fw.id (fun q => { q with active := true })
    match flo with
    | none => (tA, some typeErrorMsg)
    | some fl =>
      let tB := setPlayer tA fl.id (fun q => { q with active := true })
      match m.winnersPath with
      | none => (tB, some typeErrorMsg)
      | some wp =>
        match tB.matchList.find? (fun mm => decide (mm.id = wp)) with
        | none => (tB, some typeErrorMsg)
        | some wm =>
          let tC :=
            if wm.playerOne = some fw.id then
              setMatch tB wm.id (fun mm => { mm with playerOne := none })
            else if wm.playerTwo = some fw.id then
              setMatch tB wm.id (fun mm => { mm with playerTwo := none, active := false })
            else tB
          match m.losersPath with
          | none => (setPlayer tC fl.id (fun q => { q with active := true }), none)
          | some lp =>
            match tC.matchList.find? (fun mm => decide (mm.id = lp)) with
            | none => (tC, some typeErrorMsg)
            | some lm =>
              let tD :=
                if lm.playerOne = some fl.id then
                  setMatch tC lm.id (fun mm => { mm with playerOne := none })
                else if lm.playerTwo = some fl.id then
                  setMatch tC lm.id (fun mm => { mm with playerTwo := none, active := false })
                else tC
              (tD, none)

/-- The routing tail of `Tournament.eliminationResult` (lines 327-358):
advance the winner along `winnersPath` (or finish the tournament when it is
`null`, returning early so the loser is neither advanced nor deactivated),
then advance the loser along `losersPath` or deactivate it. -/
def elimRoute (t : Tournament) (m : Match) (winnerId loserId : String) :
    Tournament × Option String :=
  match m.winnersPath with
  | none => ({ t with status := Status.finished }, none)
  | some wp =>
    match t.matchList.find? (fun mm => decide (mm.id = wp)) with
    | none => (t, some typeErrorMsg)
    | some wm =>
      let tF :=
        if wm.playerOne = none then
          setMatch t wm.id (fun mm => { mm with playerOne := some winnerId })
        else if wm.playerTwo = none then
          setMatch t wm.id (fun mm => { mm with playerTwo := some winnerId, active := true })
        else t
      match m.losersPath with
      | none => (setPlayer tF loserId (fun q => { q with active := false }), none)
      | some lp =>
        match tF.matchList.find? (fun mm => decide (mm.id = lp)) with
        | none => (tF, some typeErrorMsg)
        | some lm =>
          let tG :=
            if lm.playerOne = none then
              setMatch tF lm.id (fun mm => { mm with playerOne := some loserId })
            else if lm.playerTwo = none then
              setMatch tF lm.id (fun mm => { mm with playerTwo := some loserId, active := true })
            else tF
          (tG, none)

/-- `Tournament.eliminationResult` (lines 235-359): record an elimination
result, pulling back and erasing a previous result first when the match is
inactive, then routing the winner and the loser along the bracket edges. -/
def eliminationResult (t : Tournament) (mid : String) (w1 w2 : Int) : Tournament × Option String :=
  if w1 = w2 then
    (t, some ("One player must win more games than the other during elimination."))
  else
    match getMatch t mid with
    | none => (t, some (noMatchMsg mid))
    | some m =>
      let step1 : Tournament × Option String :=
        if m.active = true then (t, none)
        else
          match elimPullback t m with
          | (t', some e) => (t', some e)
          | (t', none) =>
            match getMatch t' mid with
            | none => (t', some typeErrorMsg)
            | some m' => eraseResultCore t' m'
      match step1 with
      | (t1, some e) => (t1, some e)
      | (t1, none) =>
        let tA := setMatch t1 mid (fun mm => { mm with result := { mm.result with playerOneWins := w1 } })
        match getPlayerOpt tA m.playerOne with
        | none => (tA, some typeErrorMsg)
        | some p1 =>
          let tB := setPlayer tA p1.id (fun q => applyResultEntry q (elimEntryOne t1.pointsForWin m w1 w2))
          let tC := setMatch tB mid (fun mm => { mm with result := { mm.result with playerTwoWins := w2 } })
          match getPlayerOpt tC m.playerTwo with
          | none => (tC, some typeErrorMsg)
          | some p2 =>
            let tD := setPlayer tC p2.id (fun q => applyResultEntry q (elimEntryTwo t1.pointsForWin m w1 w2))
            let tE := setMatch tD mid (fun mm => { mm with active := false })
            elimRoute tE m (if w1 > w2 then p1.id else p2.id) (if w1 > w2 then p2.id else p1.id)

/-- `Swiss.eraseResult` (lines 767-817) and the textually identical
`RoundRobin.eraseResult` (lines 1186-1236): erase a reported result,
pulling the participants back from the bracket first during playoffs.
During playoffs the pull-back runs before `Tournament.eraseResult`
validates that the match is not a bye. -/
def eraseResultOuter (t : Tournament) (mid : String) : Tournament × Option String :=
  match getMatch t mid with
  | none => (t, some ("Can't find a match with ID " ++ mid ++ "."))
  | some m =>
    if m.active = true then
      (t, some ("Can't erase results of a match that is still active."))
    else if t.status = Status.playoffs then
      match elimPullback t m with
      | (t', some e) => (t', some e)
      | (t', none) =>
        match getMatch t' mid with
        | none => (t', some typeErrorMsg)
        | some m' => eraseResultCore t' m'
    else eraseResultCore t m

/-- `Swiss.result` (lines 739-761) and the textually identical
`RoundRobin.result`: dispatch to the elimination path during playoffs and
to the standard path otherwise.  A caller omitting the third component of
the result triple passes `d = 0` (the source default). -/
def swissResult (t : Tournament) (mid : String) (w1 w2 d : Int) : Tournament × Option String :=
  if t.status = Status.playoffs then eliminationResult t mid w1 w2
  else standardResult t mid w1 w2 d

/-- The bye results entry pushed by the bye-materialisation blocks of
`Swiss.startEvent` / `Swiss.nextRound` / `RoundRobin.startEvent` /
`RoundRobin.nextRound` and by the `byes` branch of `Swiss.addPlayer`. -/
def byeEntry (pfw : Rat) (bestOf : Int) (mid : String) (round : Int) : PlayerResult :=
  { matchId := mid, round := round, opponent := none, outcome := Outcome.bye,
    matchPoints := pfw,
    gamePoints := (ceilHalf bestOf : Rat) * pfw,
    games := ceilHalf bestOf }

/-- Award a bye to a player: push the bye entry, set `pairingBye` and bump
the scoreboard, exactly as the bye-materialisation blocks do. -/
def applyByeEntry (pfw : Rat) (bestOf : Int) (mid : String) (round : Int) (p : Player) : Player :=
  { p with
    results := p.results ++ [byeEntry pfw bestOf mid round],
    pairingBye := true,
    matchCount := p.matchCount + 1,
    matchPoints := p.matchPoints + pfw,
    gameCount := p.gameCount + ceilHalf bestOf,
    gamePoints := p.gamePoints + (ceilHalf bestOf : Rat) * pfw }

/-- The `byes.forEach` loop of `Swiss.startEvent` (lines 643-661) and
`Swiss.nextRound` (lines 713-732), iterating over the list of bye matches
captured by the `filter`. -/
def swissByesGo (t : Tournament) : List Match → Tournament × Option String
  | [] => (t, none)
  | b :: rest =>
    match getPlayerOpt t b.playerOne with
    | none => (t, some typeErrorMsg)
    | some p =>
      let t1 := setPlayer t p.id (applyByeEntry t.pointsForWin t.bestOf b.id b.round)
      let t2 := setMatch t1 b.id (fun mm =>
        { mm with result := { mm.result with playerOneWins := ceilHalf t.bestOf } })
      swissByesGo t2 rest

/-- Bye materialisation after swiss pairing: every current-round match with
an empty `playerTwo` slot is processed. -/
def swissProcessByes (t : Tournament) : Tournament × Option String :=
  swissByesGo t (t.matchList.filter (fun m => decide (m.round = t.currentRound ∧ m.playerTwo = none)))

/-- The bye loop of `RoundRobin.startEvent` (lines 1055-1075) and
`RoundRobin.nextRound` (lines 1129-1151); `skipEmpty` is true for the
`nextRound` variant, which skips placeholder matches with both slots
empty (the startEvent variant does not). -/
def rrByesGo (skipEmpty : Bool) (t : Tournament) : List Match → Tournament × Option String
  | [] => (t, none)
  | b :: rest =>
    if skipEmpty = true ∧ b.playerOne = none ∧ b.playerTwo = none then rrByesGo skipEmpty t rest
    else
      match getPlayerOpt t (if b.playerTwo = none then b.playerOne else b.playerTwo) with
      | none => (t, some typeErrorMsg)
      | some p =>
        let t1 := setPlayer t p.id (applyByeEntry t.pointsForWin t.bestOf b.id b.round)
        let t2 :=
          if b.playerTwo = none then
            setMatch t1 b.id (fun mm =>
              { mm with result := { mm.result with playerOneWins := ceilHalf t.bestOf } })
          else
            setMatch t1 b.id (fun mm =>
              { mm with result := { mm.result with playerTwoWins := ceilHalf t.bestOf } })
        rrByesGo skipEmpty t2 rest

/-- Bye materialisation after round-robin pairing: every current-round
match with an empty slot is processed. -/
def rrProcessByes (skipEmpty : Bool) (t : Tournament) : Tournament × Option String :=
  rrByesGo skipEmpty t
    (t.matchList.filter (fun m =>
      decide (m.round = t.currentRound ∧ (m.playerOne = none ∨ m.playerTwo = none))))

/-- Modelled from the spec: the `Player` constructor (source file Player.ts
is absent from the repository).  A newly enrolled player starts with a
zeroed scoreboard, is active, has no pairing bye and an empty results
history (spec section 3). -/
def defaultPlayer (pid aliasName : String) (seed initialByes : Int) : Player :=
  { id := pid, aliasName := aliasName, seed := seed, initialByes := initialByes,
    matchCount := 0, matchPoints := 0, gameCount := 0, gamePoints := 0,
    active := true, pairingBye := false, results := [] }

/-- Message of `Tournament.newPlayer` when the player limit is reached. -/
def playerMaxMsg (limit : Int) : String :=
  "Player maximum of " ++ toString limit ++ " has been reached. Player can not be added."

/-- Message of the (dead) status guard of `Tournament.newPlayer`. -/
def statusAddMsg (st : Status) : String :=
  "Current tournament status is " ++ statusString st ++ ". Player can not be added."

/-- Message of `Tournament.newPlayer` on a duplicate player id. -/
def dupPlayerMsg (pid : String) : String :=
  "A player with ID " ++ pid ++ " is already enrolled in the tournament. Duplicate player can not be added."

/-- Message of `Tournament.newPlayer` for late additions outside swiss. -/
def lateAddMsg (f : Format) : String :=
  "Players can not be added late to " ++ formatString f ++ " tournaments."

/-- `Tournament.newPlayer` (lines 193-227) with a caller-supplied id (the
subclasses always supply one, defaulting to a random string from the
external id supplier).  Note the second guard compares the lowercase
`status` value against the capitalised strings of the source, so it never
fires; and after the duplicate-id guard has passed, the id-regeneration
`while` loop of the source never executes, so it has no effect here. -/
def newPlayer (t : Tournament) (aliasName pid : String) (seed initialByes : Int) :
    Tournament × Option String :=
  if t.playerLimit > 0 ∧ (t.players.length : Int) = t.playerLimit then
    (t, some (playerMaxMsg t.playerLimit))
  else if ["Playoffs", "Aborted", "Finished"].any (fun s => decide (s = statusString t.status)) then
    (t, some (statusAddMsg t.status))
  else if t.players.any (fun p => decide (p.id = pid)) then
    (t, some (dupPlayerMsg pid))
  else if t.status ≠ Status.registration ∧ t.format ≠ Format.swiss then
    (t, some (lateAddMsg t.format))
  else
    ({ t with players := t.players ++ [defaultPlayer pid aliasName seed initialByes] }, none)

/-- The catch-up `loss` entry pushed by `Swiss.addPlayer` for a missed
round when `missingResults` is `'losses'`. -/
def lossCatchUpEntry (bestOf : Int) (mid : String) (round : Int) : PlayerResult :=
  { matchId := mid, round := round, opponent := none, outcome := Outcome.loss,
    matchPoints := 0, gamePoints := 0, games := ceilHalf bestOf }

/-- The catch-up loop of `Swiss.addPlayer` (lines 848-891), one iteration
per already-played round.  The `Match` object the source creates for each
missed round is never appended to `matches`, so only its generated id
survives, inside the pushed results entry; the id-collision regeneration
loop is represented by the external id supplier `freshId`. -/
def swissCatchUpGo (pid : String) (byesMode : Bool) (freshId : Nat → String)
    (t : Tournament) (i fuel : Nat) : Tournament :=
  match fuel with
  | 0 => t
  | Nat.succ n =>
    let mId := freshId i
    let t1 :=
      if byesMode then
        setPlayer t pid (applyByeEntry t.pointsForWin t.bestOf mId ((i : Int) + 1))
      else
        setPlayer t pid (fun q =>
          { q with
            results := q.results ++ [lossCatchUpEntry t.bestOf mId ((i : Int) + 1)],
            matchCount := q.matchCount + 1,
            gameCount := q.gameCount + ceilHalf t.bestOf })
    swissCatchUpGo pid byesMode freshId t1 (i + 1) n

/-- `Swiss.addPlayer` (lines 824-894): enrol through `Tournament.newPlayer`,
then, when the tournament is active, add one catch-up entry per played
round (`missingResultsByes` true models `missingResults: 'byes'`). -/
def swissAddPlayer (t : Tournament) (aliasName pid : String) (seed initialByes : Int)
    (missingResultsByes : Bool) (freshId : Nat → String) : Tournament × Option String :=
  match newPlayer t aliasName pid seed initialByes with
  | (t', some e) => (t', some e)
  | (t', none) =>
    if t'.status = Status.active then
      (swissCatchUpGo pid missingResultsByes freshId t' 0 t'.currentRound.toNat, none)
    else (t', none)

/-- Message of `removePlayer` when no player carries the id. -/
def noPlayerMsg (pid : String) : String :=
  "Can not find a player with ID " ++ pid ++ "."

/-- Message of `removePlayer` when the player is already inactive. -/
def removedAlreadyMsg (a : String) : String :=
  a ++ " has already been removed from the tournament."

/-- Message of `removePlayer` once the tournament is over. -/
def noRemoveMsg (st : Status) : String :=
  "Can not remove players if the tournament is " ++ statusString st ++ "."

/-- `Tournament.eliminationRemovePlayer` (lines 477-523): forfeit the
player's active current-round match, then repair the losers-bracket
routing when the match fed one. -/
def eliminationRemovePlayer (t : Tournament) (player : Player) : Tournament × Option String :=
  match t.matchList.find? (fun m =>
      decide (m.round = t.currentRound ∧ (m.playerOne = some player.id ∨ m.playerTwo = some player.id))) with
  | none => (t, none)
  | some m =>
    let step1 : Tournament × Option String :=
      if m.active = true then
        if m.playerOne = some player.id then
          eliminationResult t m.id 0 (ceilHalf t.bestOf)
        else
          eliminationResult t m.id (ceilHalf t.bestOf) 0
      else (t, none)
    match step1 with
    | (t1, some e) => (t1, some e)
    | (t1, none) =>
      match m.losersPath with
      | none => (t1, none)
      | some lp =>
        match t1.matchList.find? (fun mm => decide (mm.id = lp)) with
        | none => (t1, some typeErrorMsg)
        | some nextMatch =>
          if nextMatch.playerTwo = none then
            let t2 := setMatch t1 nextMatch.id (fun mm => { mm with playerOne := none })
            let moveTo := nextMatch.winnersPath
            match t2.matchList.find? (fun mm =>
                decide ((mm.winnersPath = some nextMatch.id ∨ mm.losersPath = some nextMatch.id) ∧
                  mm.playerOne ≠ some player.id ∧ mm.playerTwo ≠ some player.id)) with
            | none => (t2, some typeErrorMsg)
            | some moveFrom =>
              if moveFrom.winnersPath = some nextMatch.id then
                (setMatch t2 moveFrom.id (fun mm => { mm with winnersPath := moveTo }), none)
              else
                (setMatch t2 moveFrom.id (fun mm => { mm with losersPath := moveTo }), none)
          else
            let t2 := setMatch t1 nextMatch.id (fun mm => { mm with active := false })
            match nextMatch.winnersPath with
            | none => (t2, some typeErrorMsg)
            | some wp =>
              match t2.matchList.find? (fun mm => decide (mm.id = wp)) with
              | none => (t2, some typeErrorMsg)
              | some wm =>
                if wm.playerOne = none then
                  (setMatch t2 wm.id (fun mm =>
                    { mm with playerOne :=
                      if nextMatch.playerOne ≠ some player.id then nextMatch.playerOne
                      else nextMatch.playerTwo }), none)
                else if wm.playerTwo = none then
                  (setMatch t2 wm.id (fun mm =>
                    { mm with
                      playerTwo :=
                        (if nextMatch.playerOne ≠ some player.id then nextMatch.playerOne
                         else nextMatch.playerTwo),
                      active := true }), none)
                else (t2, none)

/-- `Swiss.removePlayer` (lines 901-939): guards, then discard during
registration, delegate during playoffs, or forfeit the active
current-round match and deactivate the player. -/
def swissRemovePlayer (t : Tournament) (pid : String) : Tournament × Option String :=
  match getPlayer t pid with
  | none => (t, some (noPlayerMsg pid))
  | some player =>
    if player.active = false then (t, some (removedAlreadyMsg player.aliasName))
    else if t.status = Status.finished ∨ t.status = Status.aborted then
      (t, some (noRemoveMsg t.status))
    else if t.status = Status.registration then
      ({ t with players := removeFirst (fun p => decide (p.id = player.id)) t.players }, none)
    else if t.status = Status.playoffs then eliminationRemovePlayer t player
    else
      let step1 : Tournament × Option String :=
        match t.matchList.find? (fun m =>
            decide (m.round = t.currentRound ∧
              (m.playerOne = some player.id ∨ m.playerTwo = some player.id))) with
        | none => (t, none)
        | some m =>
          if m.active = true then
            if m.playerOne = some player.id then
              standardResult t m.id 0 (ceilHalf t.bestOf) 0
            else
              standardResult t m.id (ceilHalf t.bestOf) 0 0
          else (t, none)
      match step1 with
      | (t1, some e) => (t1, some e)
      | (t1, none) => (setPlayer t1 pid (fun q => { q with active := false }), none)

/-- Highest round number among the matches
(`matches.reduce((max, m) => Math.max(max, m.round), 0)`). -/
def maxRound (t : Tournament) : Int :=
  t.matchList.foldl (fun a m => max a m.round) 0

/-- The slot-emptying step of the future-round loop of
`RoundRobin.removePlayer` (lines 1307-1311): `futureMatch.playerOne =
null` when the player sits in `playerOne`, else `playerTwo = null`. -/
def nullSlot (pid : String) (mm : Match) : Match :=
  if mm.playerOne = some pid then { mm with playerOne := none }
  else { mm with playerTwo := none }

/-- The future-round loop of `RoundRobin.removePlayer` (lines 1305-1312):
for each round `i` with `currentRound < i < maxRound`, empty the player's
slot in that round's match.  The source re-evaluates the `maxRound` bound
on every test, but no loop body changes any `round` field, so the bound is
constant and is passed here as the fuel. -/
def rrFutureLoop (pid : String) (t : Tournament) (i : Int) : Nat → Tournament × Option String
  | 0 => (t, none)
  | Nat.succ n =>
    match t.matchList.find? (fun m =>
        decide (m.round = i ∧ (m.playerOne = some pid ∨ m.playerTwo = some pid))) with
    | none => (t, some typeErrorMsg)
    | some fm =>
      let t1 := setMatch t fm.id (nullSlot pid)
      rrFutureLoop pid t1 (i + 1) n

/-- `RoundRobin.removePlayer` (lines 1271-1317): as the swiss variant, but
additionally emptying the player's slot in the matches of the rounds
strictly between the current round and the last scheduled round. -/
def rrRemovePlayer (t : Tournament) (pid : String) : Tournament × Option String :=
  match getPlayer t pid with
  | none => (t, some (noPlayerMsg pid))
  | some player =>
    if player.active = false then (t, some (removedAlreadyMsg player.aliasName))
    else if t.status = Status.finished ∨ t.status = Status.aborted then
      (t, some (noRemoveMsg t.status))
    else if t.status = Status.registration then
      ({ t with players := removeFirst (fun p => decide (p.id = player.id)) t.players }, none)
    else if t.status = Status.playoffs then eliminationRemovePlayer t player
    else
      let step1 : Tournament × Option String :=
        match t.matchList.find? (fun m =>
            decide (m.round = t.currentRound ∧
              (m.playerOne = some player.id ∨ m.playerTwo = some player.id))) with
        | none => (t, none)
        | some m =>
          if m.active = true then
            if m.playerOne = some player.id then
              standardResult t m.id 0 (ceilHalf t.bestOf) 0
            else
              standardResult t m.id (ceilHalf t.bestOf) 0 0
          else (t, none)
      match step1 with
      | (t1, some e) => (t1, some e)
      | (t1, none) =>
        match rrFutureLoop pid t1 (t1.currentRound + 1) ((maxRound t1 - (t1.currentRound + 1)).toNat) with
        | (t2, some e) => (t2, some e)
        | (t2, none) => (setPlayer t2 pid (fun q => { q with active := false }), none)

/-- Message of `Swiss.startEvent` when fewer than 8 players are enrolled. -/
def swissMinMsg (n : Nat) : String :=
  "Swiss tournaments require at least 8 players, and there are currently "
    ++ toString n ++ " players enrolled."

/-- Message of `RoundRobin.startEvent` when fewer than 4 players are
enrolled. -/
def rrMinMsg (n : Nat) : String :=
  "Round-Robin tournaments require at least 4 players, and there are currently "
    ++ toString n ++ " players enrolled"

/-- Message of `Elimination.startEvent` when fewer than 4 players are
enrolled: the text demands 8 although the guard admits 4. -/
def elimMinMsg (n : Nat) : String :=
  "Elimination tournaments require at least 8 players, and there are currently "
    ++ toString n ++ " players enrolled"

/-- `Swiss.startEvent` (lines 625-662).  The pairing module
(source file Pairings.ts) is absent from the repository; following the
spec (section 4.2, pairing is a pure function producing the matches of the
round), it is a parameter `pair` whose output is appended to `matches`.
`Math.ceil(Math.log2(n))` is `Nat.clog 2 n`. -/
def swissStartEvent (pair : Tournament → List Match) (t : Tournament) : Tournament × Option String :=
  if t.players.length < 8 then
    (t, some (swissMinMsg t.players.length))
  else
    let t1 := { t with status := Status.active }
    let t2 := if t1.rounds = 0 then { t1 with rounds := Int.ofNat (Nat.clog 2 t1.players.length) } else t1
    let t3 := { t2 with currentRound := t2.currentRound + 1 }
    let t4 := { t3 with matchList := t3.matchList ++ pair t3 }
    swissProcessByes t4

/-- `RoundRobin.startEvent` (lines 1040-1076), pairing modelled as for
`swissStartEvent`. -/
def rrStartEvent (pair : Tournament → List Match) (t : Tournament) : Tournament × Option String :=
  if t.players.length < 4 then
    (t, some (rrMinMsg t.players.length))
  else
    let t1 := { t with status := Status.active }
    let t2 := { t1 with currentRound := t1.currentRound + 1 }
    let t3 := { t2 with matchList := t2.matchList ++ pair t2 }
    rrProcessByes false t3

/-- `Elimination.startEvent` (lines 1363-1380): the guard admits 4 players
while its message demands 8; pairing modelled as for `swissStartEvent`. -/
def elimStartEvent (pair : Tournament → List Match) (t : Tournament) : Tournament × Option String :=
  if t.players.length < 4 then
    (t, some (elimMinMsg t.players.length))
  else
    let t1 := { t with status := Status.active }
    let t2 := { t1 with currentRound := t1.currentRound + 1 }
    ({ t2 with matchList := t2.matchList ++ pair t2 }, none)

/-- Concrete player fixture used by the counterexamples and witnesses. -/
def mkP (pid : String) (act : Bool) : Player :=
  { defaultPlayer pid pid 0 0 with active := act }

/-- Concrete round-1 match fixture used by the counterexamples and
witnesses. -/
def mkM (mid : String) (p1 p2 : Option String) (act : Bool) : Match :=
  { id := mid, round := 1, matchNumber := 1, playerOne := p1, playerTwo := p2,
    active := act, result := { playerOneWins := 0, playerTwoWins := 0, draws := 0 },
    winnersPath := none, losersPath := none }

/-- Concrete tournament fixture used by the counterexamples and
witnesses. -/
def mkT (f : Format) (ps : List Player) (ms : List Match) (st : Status) : Tournament :=
  { id := "t", name := "t", format := f, playerLimit := 0,
    pointsForWin := 1, pointsForDraw := 1/2, currentRound := 1,
    players := ps, matchList := ms, status := st, rounds := 3, bestOf := 1,
    double := false }

/-- Fixture: an active swiss tournament with one active match between two
active players. -/
def c1t : Tournament :=
  mkT Format.swiss [mkP "a" true, mkP "b" true]
    [mkM "m" (some "a") (some "b") true] Status.active

/-- Fixture: as `c1t` but player `a` is inactive (withdrawn). -/
def c1ce : Tournament :=
  mkT Format.swiss [mkP "a" false, mkP "b" true]
    [mkM "m" (some "a") (some "b") true] Status.active

/-- Fixture: a single-elimination tournament whose only match is the grand
final (`winnersPath = none`, `losersPath = none`) between two active
players. -/
def gfT : Tournament :=
  mkT Format.singleElim [mkP "a" true, mkP "b" true]
    [mkM "gf" (some "a") (some "b") true] Status.active

/-- Fixture: a single-elimination tournament with a known active match
whose `playerTwo` slot is empty. -/
def c9ce : Tournament :=
  mkT Format.singleElim [mkP "a" true]
    [mkM "m" (some "a") none true] Status.active

/-- Fixture: a swiss tournament in playoffs whose only match is an
already-materialised bye (result 1-0) for the inactive player `a`. -/
def c2t : Tournament :=
  mkT Format.swiss [mkP "a" false]
    [{ mkM "m" (some "a") none false with
        result := { playerOneWins := 1, playerTwoWins := 0, draws := 0 } }]
    Status.playoffs

/-- Fixture: a finished swiss tournament with one enrolled player. -/
def c3t : Tournament := mkT Format.swiss [mkP "a" true] [] Status.finished

/-- Fixture: a single-elimination tournament in registration with three
players. -/
def c7a : Tournament :=
  mkT Format.singleElim [mkP "a" true, mkP "b" true, mkP "c" true] [] Status.registration

/-- Fixture: a single-elimination tournament in registration with four
players. -/
def c7b : Tournament :=
  mkT Format.singleElim [mkP "a" true, mkP "b" true, mkP "c" true, mkP "d" true]
    [] Status.registration

/-- Fixture: a swiss tournament in registration with eight players. -/
def c7s : Tournament :=
  mkT Format.swiss
    [mkP "a" true, mkP "b" true, mkP "c" true, mkP "d" true,
     mkP "e" true, mkP "f" true, mkP "g" true, mkP "h" true]
    [] Status.registration

/-- Fixture: an active swiss tournament whose only current-round match is
a bye for player `a`. -/
def c8t : Tournament :=
  mkT Format.swiss [mkP "a" true] [mkM "m" (some "a") none false] Status.active

/-- Fixture: an active double round-robin tournament with three scheduled
rounds; player `a` has an active match in round 1 and scheduled matches in
rounds 2 and 3. -/
def c6t : Tournament :=
  { mkT Format.doubleRoundRobin
      [mkP "a" true, mkP "b" true, mkP "c" true, mkP "d" true]
      [mkM "m1" (some "a") (some "b") true,
       { mkM "m2" (some "a") (some "c") false with round := 2 },
       { mkM "m3" (some "a") (some "d") false with round := 3 }]
      Status.active with
    double := true }

/-- Fixture: an active swiss tournament whose only match is inactive with
both slots filled, but neither participant carries a results entry for
it. -/
def c5ce : Tournament :=
  mkT Format.swiss [mkP "a" true, mkP "b" true]
    [mkM "m" (some "a") (some "b") false] Status.active

/-- The per-player scoreboard invariant of the spec: `matchPoints` and
`gamePoints` are the sums over the results history, and `matchCount` is its
length. -/
def PlayerInv (p : Player) : Prop :=
  p.matchPoints = (p.results.map PlayerResult.matchPoints).sum ∧
  p.gamePoints = (p.results.map PlayerResult.gamePoints).sum ∧
  p.matchCount = (p.results.length : Int)

instance (p : Player) : Decidable (PlayerInv p) := by
  unfold PlayerInv
  infer_instance

/-- The tournament-wide scoreboard invariant. -/
def Inv (t : Tournament) : Prop := ∀ p ∈ t.players, PlayerInv p

instance (t : Tournament) : Decidable (Inv t) := by
  unfold Inv
  infer_instance

section ListLemmas

variable {α : Type} {β : Type} {p q : α → Bool} {f g : α → α} {a b : α}

theorem updateFirst_eq_of_find?_none {l : List α} (h : l.find? p = none) :
    updateFirst p f l = l := by
  induction l with
  | nil => rfl
  | cons x xs ih =>
    by_cases hp : p x
    · rw [List.find?_cons_of_pos _ hp] at h; exact absurd h (by simp)
    · rw [List.find?_cons_of_neg _ (by simpa using hp)] at h
      simp [updateFirst, hp, ih h]

theorem find?_updateFirst_self {l : List α} (h : l.find? p = some a)
    (hfa : p (f a) = true) : (updateFirst p f l).find? p = some (f a) := by
  induction l with
  | nil => simp at h
  | cons x xs ih =>
    by_cases hp : p x
    · rw [List.find?_cons_of_pos _ hp] at h
      obtain rfl : x = a := by simpa using h
      simp [updateFirst, hp, List.find?_cons_of_pos _ hfa]
    · rw [List.find?_cons_of_neg _ (by simpa using hp)] at h
      simp only [updateFirst, if_neg hp]
      rw [List.find?_cons_of_neg _ (by simpa using hp)]
      exact ih h

theorem find?_updateFirst_other {l : List α}
    (hpq : ∀ x ∈ l, p x = true → (q x = false ∧ q (f x) = false)) :
    (updateFirst p f l).find? q = l.find? q := by
  induction l with
  | nil => rfl
  | cons x xs ih =>
    by_cases hp : p x
    · obtain ⟨h1, h2⟩ := hpq x (by simp) hp
      simp only [updateFirst, if_pos hp]
      rw [List.find?_cons_of_neg _ (by simp [h2]), List.find?_cons_of_neg _ (by simp [h1])]
    · simp only [updateFirst, if_neg hp]
      by_cases hq : q x
      · rw [List.find?_cons_of_pos _ hq, List.find?_cons_of_pos _ hq]
      · rw [List.find?_cons_of_neg _ (by simpa using hq),
          List.find?_cons_of_neg _ (by simpa using hq)]
        exact ih (fun y hy => hpq y (by simp [hy]))

theorem updateFirst_cancel {l : List α} (h : l.find? p = some a)
    (hfa : p (f a) = true) (hgf : g (f a) = a) :
    updateFirst p g (updateFirst p f l) = l := by
  induction l with
  | nil => rfl
  | cons x xs ih =>
    by_cases hp : p x
    · rw [List.find?_cons_of_pos _ hp] at h
      obtain rfl : x = a := by simpa using h
      simp [updateFirst, hp, hfa, hgf]
    · rw [List.find?_cons_of_neg _ (by simpa using hp)] at h
      simp [updateFirst, hp, ih h]

theorem updateFirst_comm {l : List α}
    (hpq : ∀ x ∈ l, ¬(p x = true ∧ q x = true))
    (hf : ∀ x, q (f x) = q x) (hg : ∀ x, p (g x) = p x) :
    updateFirst q g (updateFirst p f l) = updateFirst p f (updateFirst q g l) := by
  induction l with
  | nil => rfl
  | cons x xs ih =>
    by_cases hp : p x
    · have hq : q x = false := by
        by_contra hq'
        exact hpq x (by simp) ⟨hp, by simpa using hq'⟩
      simp [updateFirst, hp, hq, hf x]
    · by_cases hq : q x
      · have hpg : p (g x) = false := by rw [hg]; simpa using hp
        simp [updateFirst, hp, hq, hpg]
      · simp [updateFirst, hp, hq, ih (fun y hy => hpq y (by simp [hy]))]

theorem mem_updateFirst {l : List α} (h : a ∈ updateFirst p f l) :
    a ∈ l ∨ ∃ x, x ∈ l ∧ p x = true ∧ a = f x := by
  induction l with
  | nil => simp [updateFirst] at h
  | cons x xs ih =>
    by_cases hp : p x
    · simp only [updateFirst, if_pos hp] at h
      rcases List.mem_cons.mp h with h' | h'
      · exact Or.inr ⟨x, by simp, hp, h'⟩
      · exact Or.inl (by simp [h'])
    · simp only [updateFirst, if_neg hp] at h
      rcases List.mem_cons.mp h with h' | h'
      · exact Or.inl (by simp [h'])
      · rcases ih h' with h'' | ⟨y, hy, hpy, hay⟩
        · exact Or.inl (by simp [h''])
        · exact Or.inr ⟨y, by simp [hy], hpy, hay⟩

theorem removeFirst_append_right {l : List α} (h : l.find? p = none) (ha : p a = true) :
    removeFirst p (l ++ [a]) = l := by
  induction l with
  | nil => simp [removeFirst, ha]
  | cons x xs ih =>
    by_cases hp : p x
    · rw [List.find?_cons_of_pos _ hp] at h; exact absurd h (by simp)
    · rw [List.find?_cons_of_neg _ (by simpa using hp)] at h
      simp [removeFirst, hp, ih h]

theorem length_removeFirst {l : List α} (h : l.find? p = some a) :
    (removeFirst p l).length + 1 = l.length := by
  induction l with
  | nil => simp at h
  | cons x xs ih =>
    by_cases hp : p x
    · simp [removeFirst, hp]
    · rw [List.find?_cons_of_neg _ (by simpa using hp)] at h
      simp only [removeFirst, if_neg hp, List.length_cons]
      have := ih h
      omega

theorem sum_map_removeFirst [AddCommMonoid β] (gm : α → β) {l : List α}
    (h : l.find? p = some a) :
    (l.map gm).sum = gm a + ((removeFirst p l).map gm).sum := by
  induction l with
  | nil => simp at h
  | cons x xs ih =>
    by_cases hp : p x
    · rw [List.find?_cons_of_pos _ hp] at h
      obtain rfl : x = a := by simpa using h
      simp [removeFirst, hp]
    · rw [List.find?_cons_of_neg _ (by simpa using hp)] at h
      simp only [removeFirst, if_neg hp, List.map_cons, List.sum_cons, ih h]
      rw [add_left_comm]

theorem find?_isSome_updateFirst {l : List α} (hf : ∀ x, q (f x) = q x) :
    ((updateFirst p f l).find? q).isSome = (l.find? q).isSome := by
  induction l with
  | nil => rfl
  | cons x xs ih =>
    by_cases hp : p x
    · simp only [updateFirst, if_pos hp]
      by_cases hq : q x
      · rw [List.find?_cons_of_pos _ (by rw [hf]; exact hq), List.find?_cons_of_pos _ hq]
        rfl
      · rw [List.find?_cons_of_neg _ (by rw [hf]; simpa using hq),
          List.find?_cons_of_neg _ (by simpa using hq)]
    · simp only [updateFirst, if_neg hp]
      by_cases hq : q x
      · rw [List.find?_cons_of_pos _ hq, List.find?_cons_of_pos _ hq]
      · rw [List.find?_cons_of_neg _ (by simpa using hq),
          List.find?_cons_of_neg _ (by simpa using hq)]
        exact ih

theorem find?_append_left_none {l1 l2 : List α} (h : l1.find? p = none) :
    (l1 ++ l2).find? p = l2.find? p := by
  induction l1 with
  | nil => rfl
  | cons x xs ih =>
    by_cases hp : p x
    · rw [List.find?_cons_of_pos _ hp] at h; exact absurd h (by simp)
    · rw [List.find?_cons_of_neg _ (by simpa using hp)] at h
      rw [List.cons_append, List.find?_cons_of_neg _ (by simpa using hp)]
      exact ih h

theorem map_updateFirst_eq {γ : Type} {g : α → γ} {l : List α} (h : ∀ x, g (f x) = g x) :
    (updateFirst p f l).map g = l.map g := by
  induction l with
  | nil => rfl
  | cons x xs ih =>
    by_cases hp : p x
    · simp [updateFirst, hp, h x]
    · simp [updateFirst, hp, ih]

theorem mem_updateFirst_of_pred_false {l : List α} (hx : a ∈ l) (ha : p a = false) :
    a ∈ updateFirst p f l := by
  induction l with
  | nil => simp at hx
  | cons x xs ih =>
    rcases List.mem_cons.mp hx with rfl | hx'
    · simp [updateFirst, ha]
    · by_cases hp : p x
      · simp [updateFirst, hp, hx']
      · simp [updateFirst, hp]
        exact Or.inr (ih hx')

theorem find?_eq_of_mem_nodup {γ : Type} [DecidableEq γ] {f : α → γ} {l : List α} {x : α}
    (hn : (l.map f).Nodup) (hx : x ∈ l) :
    l.find? (fun y => decide (f y = f x)) = some x := by
  induction l with
  | nil => simp at hx
  | cons a as ih =>
    rcases List.mem_cons.mp hx with rfl | hx'
    · exact List.find?_cons_of_pos _ (by simp)
    · have hfa : ¬ f a = f x := by
        intro heq
        exact (List.nodup_cons.mp (by simpa using hn)).1 (heq ▸ List.mem_map_of_mem f hx')
      rw [List.find?_cons_of_neg _ (by simpa using hfa)]
      exact ih (List.nodup_cons.mp (by simpa using hn)).2 hx'

end ListLemmas

section AccessorLemmas

theorem getPlayer_id {t : Tournament} {pid : String} {p : Player}
    (h : getPlayer t pid = some p) : p.id = pid := by
  have := List.find?_some h
  simpa using this

theorem getMatch_id {t : Tournament} {mid : String} {m : Match}
    (h : getMatch t mid = some m) : m.id = mid := by
  have := List.find?_some h
  simpa using this

@[simp] theorem players_setMatch (t : Tournament) (mid : String) (f : Match → Match) :
    (setMatch t mid f).players = t.players := rfl

@[simp] theorem matchList_setPlayer (t : Tournament) (pid : String) (f : Player → Player) :
    (setPlayer t pid f).matchList = t.matchList := rfl

@[simp] theorem status_setMatch (t : Tournament) (mid : String) (f : Match → Match) :
    (setMatch t mid f).status = t.status := rfl

@[simp] theorem status_setPlayer (t : Tournament) (pid : String) (f : Player → Player) :
    (setPlayer t pid f).status = t.status := rfl

@[simp] theorem pointsForWin_setMatch (t : Tournament) (mid : String) (f : Match → Match) :
    (setMatch t mid f).pointsForWin = t.pointsForWin := rfl

@[simp] theorem pointsForWin_setPlayer (t : Tournament) (pid : String) (f : Player → Player) :
    (setPlayer t pid f).pointsForWin = t.pointsForWin := rfl

@[simp] theorem pointsForDraw_setMatch (t : Tournament) (mid : String) (f : Match → Match) :
    (setMatch t mid f).pointsForDraw = t.pointsForDraw := rfl

@[simp] theorem pointsForDraw_setPlayer (t : Tournament) (pid : String) (f : Player → Player) :
    (setPlayer t pid f).pointsForDraw = t.pointsForDraw := rfl

@[simp] theorem bestOf_setMatch (t : Tournament) (mid : String) (f : Match → Match) :
    (setMatch t mid f).bestOf = t.bestOf := rfl

@[simp] theorem bestOf_setPlayer (t : Tournament) (pid : String) (f : Player → Player) :
    (setPlayer t pid f).bestOf = t.bestOf := rfl

@[simp] theorem currentRound_setMatch (t : Tournament) (mid : String) (f : Match → Match) :
    (setMatch t mid f).currentRound = t.currentRound := rfl

@[simp] theorem currentRound_setPlayer (t : Tournament) (pid : String) (f : Player → Player) :
    (setPlayer t pid f).currentRound = t.currentRound := rfl

@[simp] theorem getPlayer_setMatch (t : Tournament) (mid : String) (f : Match → Match)
    (pid : String) : getPlayer (setMatch t mid f) pid = getPlayer t pid := rfl

@[simp] theorem getMatch_setPlayer (t : Tournament) (pid : String) (f : Player → Player)
    (mid : String) : getMatch (setPlayer t pid f) mid = getMatch t mid := rfl

theorem players_eta (t : Tournament) : { t with players := t.players } = t := rfl

theorem matchList_eta (t : Tournament) : { t with matchList := t.matchList } = t := rfl

theorem getPlayer_setPlayer_self {t : Tournament} {pid : String} {f : Player → Player}
    {p : Player} (h : getPlayer t pid = some p) (hf : (f p).id = p.id) :
    getPlayer (setPlayer t pid f) pid = some (f p) := by
  unfold getPlayer setPlayer at *
  exact find?_updateFirst_self h (by simp [hf, getPlayer_id (t := t) (by exact h)])

theorem getPlayer_setPlayer_other {t : Tournament} {pid qid : String} {f : Player → Player}
    (hne : pid ≠ qid) (hf : ∀ x, (f x).id = x.id) :
    getPlayer (setPlayer t pid f) qid = getPlayer t qid := by
  unfold getPlayer setPlayer
  refine find?_updateFirst_other (fun x _ hx => ?_)
  have hxid : x.id = pid := by simpa using hx
  constructor
  · simp [hxid, hne]
  · simp [hf, hxid, hne]

theorem getMatch_setMatch_self {t : Tournament} {mid : String} {f : Match → Match}
    {m : Match} (h : getMatch t mid = some m) (hf : (f m).id = m.id) :
    getMatch (setMatch t mid f) mid = some (f m) := by
  unfold getMatch setMatch at *
  exact find?_updateFirst_self h (by simp [hf, getMatch_id (t := t) (by exact h)])

theorem getMatch_setMatch_other {t : Tournament} {mid nid : String} {f : Match → Match}
    (hne : mid ≠ nid) (hf : ∀ x, (f x).id = x.id) :
    getMatch (setMatch t mid f) nid = getMatch t nid := by
  unfold getMatch setMatch
  refine find?_updateFirst_other (fun x _ hx => ?_)
  have hxid : x.id = mid := by simpa using hx
  constructor
  · simp [hxid, hne]
  · simp [hf, hxid, hne]

theorem setPlayer_setPlayer_cancel {t : Tournament} {pid : String} {f g : Player → Player}
    {p : Player} (h : getPlayer t pid = some p) (hf : (f p).id = p.id)
    (hgf : g (f p) = p) : setPlayer (setPlayer t pid f) pid g = t := by
  have hid := getPlayer_id h
  unfold getPlayer at h
  show { t with players := updateFirst _ g (updateFirst _ f t.players) } = t
  rw [updateFirst_cancel h (by simp [hf, hid]) hgf]

theorem setMatch_setMatch_cancel {t : Tournament} {mid : String} {f g : Match → Match}
    {m : Match} (h : getMatch t mid = some m) (hf : (f m).id = m.id)
    (hgf : g (f m) = m) : setMatch (setMatch t mid f) mid g = t := by
  have hid := getMatch_id h
  unfold getMatch at h
  show { t with matchList := updateFirst _ g (updateFirst _ f t.matchList) } = t
  rw [updateFirst_cancel h (by simp [hf, hid]) hgf]

theorem setPlayer_comm {t : Tournament} {pid qid : String} {f g : Player → Player}
    (hne : pid ≠ qid) (hf : ∀ x, (f x).id = x.id) (hg : ∀ x, (g x).id = x.id) :
    setPlayer (setPlayer t pid f) qid g = setPlayer (setPlayer t qid g) pid f := by
  show { t with players := updateFirst _ g (updateFirst _ f t.players) }
    = { t with players := updateFirst _ f (updateFirst _ g t.players) }
  rw [updateFirst_comm (fun x _ hx => ?_) (fun x => ?_) (fun x => ?_)]
  · have : x.id = pid := by simpa using hx.1
    have : x.id = qid := by simpa using hx.2
    exact hne (by cc)
  · simp [hf]
  · simp [hg]

theorem setMatch_setPlayer_comm (t : Tournament) (mid pid : String)
    (f : Match → Match) (g : Player → Player) :
    setMatch (setPlayer t pid g) mid f = setPlayer (setMatch t mid f) pid g := rfl

theorem getPlayer_setPlayer_isSome {t : Tournament} {pid qid : String} {f : Player → Player}
    (hf : ∀ x, (f x).id = x.id) :
    (getPlayer (setPlayer t pid f) qid).isSome = (getPlayer t qid).isSome :=
  find?_isSome_updateFirst (fun x => by simp [hf])

theorem getMatch_setMatch_isSome {t : Tournament} {mid nid : String} {f : Match → Match}
    (hf : ∀ x, (f x).id = x.id) :
    (getMatch (setMatch t mid f) nid).isSome = (getMatch t nid).isSome :=
  find?_isSome_updateFirst (fun x => by simp [hf])

end AccessorLemmas

section UpdaterLemmas

@[simp] theorem id_applyResultEntry (p : Player) (e : PlayerResult) :
    (applyResultEntry p e).id = p.id := rfl

@[simp] theorem id_eraseRemoveEntry (p : Player) (e : PlayerResult) :
    (eraseRemoveEntry p e).id = p.id := rfl

@[simp] theorem id_stdUpdateOne (pfw pfd : Rat) (m : Match) (w1 w2 d : Int) (q : Player) :
    (stdUpdateOne pfw pfd m w1 w2 d q).id = q.id := rfl

@[simp] theorem id_stdUpdateTwo (pfw pfd : Rat) (m : Match) (w1 w2 d : Int) (q : Player) :
    (stdUpdateTwo pfw pfd m w1 w2 d q).id = q.id := rfl

@[simp] theorem id_stdMatchWrite (w1 w2 d : Int) (mm : Match) :
    (stdMatchWrite w1 w2 d mm).id = mm.id := rfl

@[simp] theorem id_eraseMatchReset (mm : Match) :
    (eraseMatchReset mm).id = mm.id := rfl

@[simp] theorem id_applyByeEntry (pfw : Rat) (bo : Int) (mid : String) (r : Int) (p : Player) :
    (applyByeEntry pfw bo mid r p).id = p.id := rfl

@[simp] theorem active_applyResultEntry (p : Player) (e : PlayerResult) :
    (applyResultEntry p e).active = p.active := rfl

@[simp] theorem active_stdUpdateOne (pfw pfd : Rat) (m : Match) (w1 w2 d : Int) (q : Player) :
    (stdUpdateOne pfw pfd m w1 w2 d q).active = true := rfl

@[simp] theorem active_stdUpdateTwo (pfw pfd : Rat) (m : Match) (w1 w2 d : Int) (q : Player) :
    (stdUpdateTwo pfw pfd m w1 w2 d q).active = true := rfl

/-- A player with `active` already true is unchanged by the reactivation
write. -/
theorem active_write_eta {p : Player} (h : p.active = true) :
    { p with active := true } = p := by
  cases p
  simp_all

/-- A match that was active with a zeroed result is restored exactly by
`eraseMatchReset` after `stdMatchWrite`. -/
theorem eraseMatchReset_stdMatchWrite {m : Match} (hact : m.active = true)
    (hres : m.result = { playerOneWins := 0, playerTwoWins := 0, draws := 0 }) :
    eraseMatchReset (stdMatchWrite w1 w2 d m) = m := by
  cases m
  simp_all [eraseMatchReset, stdMatchWrite]

/-- Removing a freshly pushed entry restores the player exactly, provided
no earlier entry carries the same match id. -/
theorem eraseRemoveEntry_applyResultEntry (p : Player) (e : PlayerResult)
    (he : p.results.find? (fun r => decide (r.matchId = e.matchId)) = none) :
    eraseRemoveEntry (applyResultEntry p e) e = p := by
  have hrm : removeFirst (fun r => decide (r.matchId = e.matchId)) (p.results ++ [e])
      = p.results := removeFirst_append_right he (by simp)
  unfold eraseRemoveEntry applyResultEntry
  cases p
  simp_all

end UpdaterLemmas

section StandardResultLemmas

/-- Explicit form of the success path of `standardResult` on an active
match whose two slots name enrolled players. -/
theorem standardResult_success_eq {t : Tournament} {mid : String} {w1 w2 d : Int}
    {m : Match} {p1id p2id : String} {p1 p2 : Player}
    (hm : getMatch t mid = some m) (hact : m.active = true)
    (hs1 : m.playerOne = some p1id) (hs2 : m.playerTwo = some p2id)
    (hp1 : getPlayer t p1id = some p1) (hp2 : getPlayer t p2id = some p2) :
    standardResult t mid w1 w2 d =
      (setMatch
        (setPlayer (setPlayer t p1id (stdUpdateOne t.pointsForWin t.pointsForDraw m w1 w2 d))
          p2id (stdUpdateTwo t.pointsForWin t.pointsForDraw m w1 w2 d))
        mid (stdMatchWrite w1 w2 d), none) := by
  have hid1 := getPlayer_id hp1
  have hid2 := getPlayer_id hp2
  have hmid := getMatch_id hm
  unfold standardResult standardResultApply
  rw [hm]
  simp only [hact, if_true, hs1, hs2, getPlayerOpt, hp1, hp2, hid1, hid2, hmid]

end StandardResultLemmas

section C1

/-- C1 (amended).  In a swiss or round-robin tournament outside playoffs,
reporting a result on an active match whose two slots are filled with
distinct enrolled players that are both active, whose result is still
zeroed, and for which neither participant already carries a results entry,
and then immediately erasing that match, restores the tournament state
exactly. -/
theorem c1_report_erase_roundtrip (t : Tournament) (mid : String) (w1 w2 d : Int)
    (m : Match) (p1id p2id : String) (p1 p2 : Player)
    (hm : getMatch t mid = some m) (hact : m.active = true)
    (hres : m.result = { playerOneWins := 0, playerTwoWins := 0, draws := 0 })
    (hs1 : m.playerOne = some p1id) (hs2 : m.playerTwo = some p2id)
    (hne : p1id ≠ p2id)
    (hp1 : getPlayer t p1id = some p1) (hp2 : getPlayer t p2id = some p2)
    (ha1 : p1.active = true) (ha2 : p2.active = true)
    (he1 : p1.results.find? (fun r => decide (r.matchId = mid)) = none)
    (he2 : p2.results.find? (fun r => decide (r.matchId = mid)) = none)
    (hst : t.status = Status.active) :
    (swissResult t mid w1 w2 d).2 = none ∧
      eraseResultOuter (swissResult t mid w1 w2 d).1 mid = (t, none) := by
  have hid1 := getPlayer_id hp1
  have hid2 := getPlayer_id hp2
  have hmid := getMatch_id hm
  have hstd := @standardResult_success_eq t mid w1 w2 d m p1id p2id p1 p2 hm hact hs1 hs2 hp1 hp2
  have hsw : swissResult t mid w1 w2 d = standardResult t mid w1 w2 d := by
    unfold swissResult
    simp [hst]
  set F1 := stdUpdateOne t.pointsForWin t.pointsForDraw m w1 w2 d with hF1
  set F2 := stdUpdateTwo t.pointsForWin t.pointsForDraw m w1 w2 d with hF2
  set X := setPlayer (setPlayer t p1id F1) p2id F2 with hX
  set W := stdMatchWrite w1 w2 d m with hW
  set T' := setMatch X mid (stdMatchWrite w1 w2 d) with hT'
  have hres1 : swissResult t mid w1 w2 d = (T', none) := by rw [hsw, hstd]
  refine ⟨by rw [hres1], ?_⟩
  rw [hres1]
  -- lookups in the post-report state
  have hgmX : getMatch X mid = some m := by
    rw [hX, getMatch_setPlayer, getMatch_setPlayer, hm]
  have hgm' : getMatch T' mid = some W := by
    rw [hT', getMatch_setMatch_self hgmX rfl, hW]
  have hWact : W.active = false := rfl
  have hWs1 : W.playerOne = some p1id := hs1
  have hWs2 : W.playerTwo = some p2id := hs2
  have hWid : W.id = mid := by rw [hW]; exact hmid
  -- the entries pushed by the report
  set e1 := stdEntryOne t.pointsForWin t.pointsForDraw m w1 w2 d with he1d
  set e2 := stdEntryTwo t.pointsForWin t.pointsForDraw m w1 w2 d with he2d
  have he1id : e1.matchId = mid := by rw [he1d]; exact hmid
  have he2id : e2.matchId = mid := by rw [he2d]; exact hmid
  have hF1p1 : F1 p1 = applyResultEntry p1 e1 := by
    rw [hF1]; unfold stdUpdateOne; rw [active_write_eta ha1, he1d]
  have hF2p2 : F2 p2 = applyResultEntry p2 e2 := by
    rw [hF2]; unfold stdUpdateTwo; rw [active_write_eta ha2, he2d]
  -- the first setMatch of the erase undoes the report's match write
  have hreset : setMatch T' mid eraseMatchReset = X := by
    rw [hT']
    exact setMatch_setMatch_cancel hgmX rfl (eraseMatchReset_stdMatchWrite hact hres)
  -- player-one lookup and undo
  have hgp1X : getPlayer X p1id = some (F1 p1) := by
    rw [hX, getPlayer_setPlayer_other (Ne.symm hne) (fun x => by simp [hF2]),
      getPlayer_setPlayer_self hp1 (by simp [hF1])]
  have hfind1 : (F1 p1).results.find? (fun r => decide (r.matchId = mid)) = some e1 := by
    rw [hF1p1]
    show (p1.results ++ [e1]).find? _ = _
    rw [find?_append_left_none he1]
    simp [List.find?, he1id]
  have hcancel1 : setPlayer X p1id (fun q => eraseRemoveEntry q e1) = setPlayer t p2id F2 := by
    rw [hX, setPlayer_comm (Ne.symm hne) (fun x => by simp [hF2]) (fun x => by simp)]
    congr 1
    refine setPlayer_setPlayer_cancel hp1 (by simp [hF1]) ?_
    rw [hF1p1]
    exact eraseRemoveEntry_applyResultEntry p1 e1 (by rw [he1id]; exact he1)
  -- player-two lookup and undo
  have hgp2Y : getPlayer (setPlayer t p2id F2) p2id = some (F2 p2) :=
    getPlayer_setPlayer_self hp2 (by simp [hF2])
  have hfind2 : (F2 p2).results.find? (fun r => decide (r.matchId = mid)) = some e2 := by
    rw [hF2p2]
    show (p2.results ++ [e2]).find? _ = _
    rw [find?_append_left_none he2]
    simp [List.find?, he2id]
  have hcancel2 : setPlayer (setPlayer t p2id F2) p2id (fun q => eraseRemoveEntry q e2) = t := by
    refine setPlayer_setPlayer_cancel hp2 (by simp [hF2]) ?_
    rw [hF2p2]
    exact eraseRemoveEntry_applyResultEntry p2 e2 (by rw [he2id]; exact he2)
  -- now evaluate the erase
  have hT'st : T'.status = Status.active := by
    rw [hT', status_setMatch, hX, status_setPlayer, status_setPlayer, hst]
  unfold eraseResultOuter
  rw [hgm']
  simp only [hWact, Bool.false_eq_true, if_false, hT'st, reduceCtorEq, if_false]
  unfold eraseResultCore
  simp only [hWact, Bool.false_eq_true, if_false, hWs1, hWs2, hWid]
  rw [hreset, hgp1X]
  simp only [hWid, hfind1]
  rw [hcancel1, hgp2Y]
  simp only [hfind2]
  rw [hcancel2]

/-- C1 witness: the roundtrip theorem applied to the concrete fixture
`c1t`. -/
theorem c1_witness :
    (swissResult c1t "m" 2 1 0).2 = none ∧
      eraseResultOuter (swissResult c1t "m" 2 1 0).1 "m" = (c1t, none) :=
  c1_report_erase_roundtrip c1t "m" 2 1 0 (mkM "m" (some "a") (some "b") true) "a" "b"
    (mkP "a" true) (mkP "b" true) (by decide) (by decide) (by decide) (by decide)
    (by decide) (by decide) (by decide) (by decide) (by decide) (by decide)
    (by decide) (by decide) (by decide)

/-- C1 counterexample: on `c1ce`, whose player `a` had withdrawn, reporting
the match and immediately erasing it both succeed, yet the resulting state
differs from the original one (the report reactivated player `a` and the
erase does not undo that). -/
theorem c1_counterexample :
    (swissResult c1ce "m" 2 1 0).2 = none ∧
      (eraseResultOuter (swissResult c1ce "m" 2 1 0).1 "m").2 = none ∧
      (eraseResultOuter (swissResult c1ce "m" 2 1 0).1 "m").1 ≠ c1ce := by
  simp [c1ce, mkT, mkP, mkM, swissResult, standardResult, standardResultApply,
    getMatch, getPlayer, getPlayerOpt, setMatch, setPlayer, updateFirst, removeFirst,
    eraseResultOuter, eraseResultCore, applyResultEntry, stdUpdateOne, stdUpdateTwo,
    stdMatchWrite, eraseMatchReset, eraseRemoveEntry, stdEntryOne, stdEntryTwo,
    defaultPlayer, typeErrorMsg, List.find?, Tournament.mk.injEq, Player.mk.injEq,
    Match.mk.injEq]

end C1

section C10

/-- Helper for C10: a successful `standardResultApply` leaves both slot
players active. -/
theorem standardResultApply_active (t : Tournament) (m : Match) (w1 w2 d : Int)
    {p1id p2id : String}
    (hs1 : m.playerOne = some p1id) (hs2 : m.playerTwo = some p2id)
    (hsucc : (standardResultApply t m w1 w2 d).2 = none) :
    ((getPlayer (standardResultApply t m w1 w2 d).1 p1id).map Player.active = some true) ∧
      ((getPlayer (standardResultApply t m w1 w2 d).1 p2id).map Player.active = some true) := by
  unfold standardResultApply at hsucc ⊢
  rw [hs1, hs2] at hsucc ⊢
  simp only [getPlayerOpt] at hsucc ⊢
  cases hp1 : getPlayer t p1id with
  | none => simp only [hp1] at hsucc; simp at hsucc
  | some p1 =>
    cases hp2 : getPlayer t p2id with
    | none => simp only [hp1, hp2] at hsucc; simp at hsucc
    | some p2 =>
      simp only [hp1, hp2] at hsucc ⊢
      have hid1 := getPlayer_id hp1
      have hid2 := getPlayer_id hp2
      by_cases hne : p1id = p2id
      · subst hne
        have h1 : getPlayer (setPlayer t p1.id (stdUpdateOne t.pointsForWin t.pointsForDraw m w1 w2 d)) p1id
            = some (stdUpdateOne t.pointsForWin t.pointsForDraw m w1 w2 d p1) := by
          rw [hid1]
          exact getPlayer_setPlayer_self hp1 (by simp)
        have h2 : getPlayer (setPlayer (setPlayer t p1.id (stdUpdateOne t.pointsForWin t.pointsForDraw m w1 w2 d))
              p2.id (stdUpdateTwo t.pointsForWin t.pointsForDraw m w1 w2 d)) p1id
            = some (stdUpdateTwo t.pointsForWin t.pointsForDraw m w1 w2 d
                (stdUpdateOne t.pointsForWin t.pointsForDraw m w1 w2 d p1)) := by
          rw [hid2]
          exact getPlayer_setPlayer_self h1 (by simp)
        constructor <;> simp [getPlayer_setMatch, h2]
      · have h1 : getPlayer (setPlayer t p1.id (stdUpdateOne t.pointsForWin t.pointsForDraw m w1 w2 d)) p2id
            = some p2 := by
          rw [hid1]
          exact (getPlayer_setPlayer_other hne (fun x => by simp)).trans hp2
        have h2 : getPlayer (setPlayer (setPlayer t p1.id (stdUpdateOne t.pointsForWin t.pointsForDraw m w1 w2 d))
              p2.id (stdUpdateTwo t.pointsForWin t.pointsForDraw m w1 w2 d)) p2id
            = some (stdUpdateTwo t.pointsForWin t.pointsForDraw m w1 w2 d p2) := by
          rw [hid2]
          exact getPlayer_setPlayer_self h1 (by simp)
        have h3 : getPlayer (setPlayer (setPlayer t p1.id (stdUpdateOne t.pointsForWin t.pointsForDraw m w1 w2 d))
              p2.id (stdUpdateTwo t.pointsForWin t.pointsForDraw m w1 w2 d)) p1id
            = some (stdUpdateOne t.pointsForWin t.pointsForDraw m w1 w2 d p1) := by
          rw [hid2]
          rw [getPlayer_setPlayer_other (fun h => hne h.symm) (fun x => by simp)]
          rw [hid1]
          exact getPlayer_setPlayer_self hp1 (by simp)
        constructor <;> simp [getPlayer_setMatch, h2, h3]

/-- C10.  Every successful `standardResult` call (swiss or round-robin
outside playoffs) leaves both slot players of the match with
`active = true`: reporting (or re-reporting) a result reactivates a
participant who had withdrawn or been deactivated. -/
theorem c10_standardResult_reactivates (t : Tournament) (mid : String) (w1 w2 d : Int)
    (m : Match) (p1id p2id : String)
    (hm : getMatch t mid = some m)
    (hs1 : m.playerOne = some p1id) (hs2 : m.playerTwo = some p2id)
    (hsucc : (standardResult t mid w1 w2 d).2 = none) :
    ((getPlayer (standardResult t mid w1 w2 d).1 p1id).map Player.active = some true) ∧
      ((getPlayer (standardResult t mid w1 w2 d).1 p2id).map Player.active = some true) := by
  unfold standardResult at hsucc ⊢
  rw [hm] at hsucc ⊢
  by_cases hact : m.active = true
  · simp only [hact, if_true] at hsucc ⊢
    exact standardResultApply_active t m w1 w2 d hs1 hs2 hsucc
  · have hact' : m.active = false := by simpa using hact
    simp only [hact', Bool.false_eq_true, if_false] at hsucc ⊢
    cases herase : eraseResultCore t m with
    | mk t' e =>
      simp only [herase] at hsucc ⊢
      cases e with
      | none =>
        exact standardResultApply_active t' (eraseMatchReset m) w1 w2 d hs1 hs2 hsucc
      | some msg =>
        simp at hsucc

/-- C10 witness: the reactivation theorem applied to the fixture `c1ce`,
whose player `a` was inactive before the report. -/
theorem c10_witness :
    ((getPlayer (standardResult c1ce "m" 2 1 0).1 "a").map Player.active = some true) ∧
      ((getPlayer (standardResult c1ce "m" 2 1 0).1 "b").map Player.active = some true) :=
  c10_standardResult_reactivates c1ce "m" 2 1 0 (mkM "m" (some "a") (some "b") true)
    "a" "b" (by decide) (by decide) (by decide) (by decide)

end C10

section ElimLemmas

/-- Explicit form of the success path of `eliminationResult` on an active
match whose two slots name distinct enrolled players, with unequal wins. -/
theorem eliminationResult_active_eq {t : Tournament} {mid : String} {w1 w2 : Int}
    {m : Match} {p1id p2id : String} {p1 p2 : Player}
    (hm : getMatch t mid = some m) (hact : m.active = true) (hw : ¬ w1 = w2)
    (hs1 : m.playerOne = some p1id) (hs2 : m.playerTwo = some p2id)
    (hp1 : getPlayer t p1id = some p1) (hp2 : getPlayer t p2id = some p2)
    (hne : p1id ≠ p2id) :
    eliminationResult t mid w1 w2 =
      elimRoute
        (setMatch
          (setPlayer
            (setMatch
              (setPlayer
                (setMatch t mid (fun mm => { mm with result := { mm.result with playerOneWins := w1 } }))
                p1id (fun q => applyResultEntry q (elimEntryOne t.pointsForWin m w1 w2)))
              mid (fun mm => { mm with result := { mm.result with playerTwoWins := w2 } }))
            p2id (fun q => applyResultEntry q (elimEntryTwo t.pointsForWin m w1 w2)))
          mid (fun mm => { mm with active := false }))
        m (if w1 > w2 then p1id else p2id) (if w1 > w2 then p2id else p1id) := by
  have hid1 := getPlayer_id hp1
  have hid2 := getPlayer_id hp2
  unfold eliminationResult
  simp only [hw, if_false, hm, hact, if_true]
  simp only [hs1, hs2, getPlayerOpt, getPlayer_setMatch, hp1, hid1]
  rw [getPlayer_setPlayer_other hne (fun x => by simp)]
  simp only [getPlayer_setMatch, hp2, hid2]

/-- An `elimRoute` call succeeds whenever the routing edges of the match
resolve to existing matches. -/
theorem elimRoute_success (t' : Tournament) (m : Match) (wid lid : String)
    (hwp : ∀ wp, m.winnersPath = some wp → (getMatch t' wp).isSome = true)
    (hlp : ∀ lp, m.losersPath = some lp → (getMatch t' lp).isSome = true) :
    (elimRoute t' m wid lid).2 = none := by
  unfold elimRoute
  cases hw : m.winnersPath with
  | none => rfl
  | some wp =>
    obtain ⟨wm, hwm⟩ := Option.isSome_iff_exists.mp (hwp wp hw)
    have hwm' : t'.matchList.find? (fun mm => decide (mm.id = wp)) = some wm := hwm
    simp only [hwm']
    cases hl : m.losersPath with
    | none => by_cases h1 : wm.playerOne = none <;> by_cases h2 : wm.playerTwo = none <;>
        simp [h1, h2]
    | some lp =>
      have hlp0 := hlp lp hl
      by_cases h1 : wm.playerOne = none
      · simp only [if_pos h1]
        have htF : ((setMatch t' wm.id (fun mm => { mm with playerOne := some wid })).matchList.find?
            (fun mm => decide (mm.id = lp))).isSome = true := by
          have h := @getMatch_setMatch_isSome t' wm.id lp
            (fun mm => { mm with playerOne := some wid }) (fun x => rfl)
          unfold getMatch at h
          rw [h]; exact hlp0
        obtain ⟨lm, hlm⟩ := Option.isSome_iff_exists.mp htF
        simp only [hlm]
      · simp only [if_neg h1]
        by_cases h2 : wm.playerTwo = none
        · simp only [if_pos h2]
          have htF : ((setMatch t' wm.id (fun mm => { mm with playerTwo := some wid, active := true })).matchList.find?
              (fun mm => decide (mm.id = lp))).isSome = true := by
            have h := @getMatch_setMatch_isSome t' wm.id lp
              (fun mm => { mm with playerTwo := some wid, active := true }) (fun x => rfl)
            unfold getMatch at h
            rw [h]; exact hlp0
          obtain ⟨lm, hlm⟩ := Option.isSome_iff_exists.mp htF
          simp only [hlm]
        · simp only [if_neg h2]
          obtain ⟨lm, hlm⟩ := Option.isSome_iff_exists.mp hlp0
          have hlm' : t'.matchList.find? (fun mm => decide (mm.id = lp)) = some lm := hlm
          simp only [hlm']

end ElimLemmas

section C9

/-- C9 (amended).  On an active elimination match whose two slots name
distinct enrolled players and whose routing edges resolve to existing
matches, the call fails (and changes nothing) exactly when the two supplied
game-win counts are equal; with unequal counts it succeeds.  (Without the
well-formedness conditions a known match can still crash: see the
counterexample.) -/
theorem c9_elimination_equal_wins (t : Tournament) (mid : String) (w1 w2 : Int)
    (m : Match) (p1id p2id : String) (p1 p2 : Player)
    (hm : getMatch t mid = some m) (hact : m.active = true)
    (hs1 : m.playerOne = some p1id) (hs2 : m.playerTwo = some p2id)
    (hp1 : getPlayer t p1id = some p1) (hp2 : getPlayer t p2id = some p2)
    (hne : p1id ≠ p2id)
    (hwp : ∀ wp, m.winnersPath = some wp → (getMatch t wp).isSome = true)
    (hlp : ∀ lp, m.losersPath = some lp → (getMatch t lp).isSome = true) :
    (((eliminationResult t mid w1 w2).2 ≠ none) ↔ w1 = w2) ∧
      (w1 = w2 → (eliminationResult t mid w1 w2).1 = t) := by
  by_cases hw : w1 = w2
  · have h1 : (eliminationResult t mid w1 w2).2 ≠ none := by
      unfold eliminationResult
      rw [if_pos hw]
      simp
    have h2 : (eliminationResult t mid w1 w2).1 = t := by
      unfold eliminationResult
      rw [if_pos hw]
    exact ⟨⟨fun _ => hw, fun _ => h1⟩, fun _ => h2⟩
  · have hchar := eliminationResult_active_eq hm hact hw hs1 hs2 hp1 hp2 hne
    have hpre : ∀ x : String,
        (getMatch
          (setMatch
            (setPlayer
              (setMatch
                (setPlayer
                  (setMatch t mid (fun mm => { mm with result := { mm.result with playerOneWins := w1 } }))
                  p1id (fun q => applyResultEntry q (elimEntryOne t.pointsForWin m w1 w2)))
                mid (fun mm => { mm with result := { mm.result with playerTwoWins := w2 } }))
              p2id (fun q => applyResultEntry q (elimEntryTwo t.pointsForWin m w1 w2)))
            mid (fun mm => { mm with active := false })) x).isSome = (getMatch t x).isSome := by
      intro x
      rw [getMatch_setMatch_isSome (f := fun mm => { mm with active := false }) (fun y => rfl),
        getMatch_setPlayer,
        getMatch_setMatch_isSome
          (f := fun mm => { mm with result := { mm.result with playerTwoWins := w2 } }) (fun y => rfl),
        getMatch_setPlayer,
        getMatch_setMatch_isSome
          (f := fun mm => { mm with result := { mm.result with playerOneWins := w1 } }) (fun y => rfl)]
    have hsucc : (eliminationResult t mid w1 w2).2 = none := by
      rw [hchar]
      apply elimRoute_success
      · intro wp h
        rw [hpre wp]
        exact hwp wp h
      · intro lp h
        rw [hpre lp]
        exact hlp lp h
    refine ⟨⟨fun hcon => absurd hsucc hcon, fun h12 => absurd h12 hw⟩,
      fun h12 => absurd h12 hw⟩

/-- C9 witness: the amended theorem applied to the grand-final fixture
`gfT`. -/
theorem c9_witness :
    (((eliminationResult gfT "gf" 2 1).2 ≠ none) ↔ (2 : Int) = 1) ∧
      ((2 : Int) = 1 → (eliminationResult gfT "gf" 2 1).1 = gfT) :=
  c9_elimination_equal_wins gfT "gf" 2 1 (mkM "gf" (some "a") (some "b") true) "a" "b"
    (mkP "a" true) (mkP "b" true) (by decide) (by decide) (by decide) (by decide)
    (by decide) (by decide) (by decide)
    (fun _ h => Option.noConfusion h) (fun _ h => Option.noConfusion h)

/-- C9 counterexample: on `c9ce` the match id `m` is known and the win
counts differ, yet the call fails (the empty `playerTwo` slot raises a
TypeError), refuting the claim that an elimination result with unequal
wins on a known match always succeeds. -/
theorem c9_counterexample :
    (getMatch c9ce "m").isSome = true ∧ (2 : Int) ≠ 1 ∧
      (eliminationResult c9ce "m" 2 1).2 ≠ none := by
  decide

end C9

section C4

/-- C4 (amended).  For a result with `w1 ≠ w2` on an active elimination
match with distinct enrolled players in its slots: (a) the winner is placed
into `playerOne` of the `winnersPath` match if that slot is empty, else
into `playerTwo` if that slot is empty, and the downstream match is
activated exactly when the winner fills `playerTwo`; (b) when
`winnersPath ≠ none` the loser is placed along `losersPath` by the same
rule, or deactivated when `losersPath = none`; (c) when
`winnersPath = none` the status becomes finished and, the source returning
early, the loser is neither advanced nor deactivated (its active flag is
unchanged). -/
theorem c4_elimination_routing (t : Tournament) (mid : String) (w1 w2 : Int)
    (m : Match) (p1id p2id : String) (p1 p2 : Player)
    (hm : getMatch t mid = some m) (hact : m.active = true)
    (hs1 : m.playerOne = some p1id) (hs2 : m.playerTwo = some p2id)
    (hp1 : getPlayer t p1id = some p1) (hp2 : getPlayer t p2id = some p2)
    (hne : p1id ≠ p2id) (hw : ¬ w1 = w2) :
    (m.winnersPath = none →
        (eliminationResult t mid w1 w2).2 = none ∧
        (eliminationResult t mid w1 w2).1.status = Status.finished ∧
        (getPlayer (eliminationResult t mid w1 w2).1 (if w1 > w2 then p2id else p1id)).map Player.active
          = some (if w1 > w2 then p2.active else p1.active)) ∧
    (∀ wp wm, m.winnersPath = some wp → getMatch t wp = some wm → wp ≠ mid →
      (m.losersPath = none ∨
        (∃ lp, m.losersPath = some lp ∧ lp ≠ mid ∧ lp ≠ wp ∧ (getMatch t lp).isSome = true)) →
      ((wm.playerOne = none →
          getMatch (eliminationResult t mid w1 w2).1 wp
            = some { wm with playerOne := some (if w1 > w2 then p1id else p2id) }) ∧
       (∀ x, wm.playerOne = some x → wm.playerTwo = none →
          getMatch (eliminationResult t mid w1 w2).1 wp
            = some { wm with playerTwo := some (if w1 > w2 then p1id else p2id), active := true }) ∧
       (m.losersPath = none →
          (eliminationResult t mid w1 w2).2 = none ∧
          (getPlayer (eliminationResult t mid w1 w2).1 (if w1 > w2 then p2id else p1id)).map
            Player.active = some false) ∧
       (∀ lp lm, m.losersPath = some lp → getMatch t lp = some lm → lp ≠ mid → lp ≠ wp →
          ((lm.playerOne = none →
             getMatch (eliminationResult t mid w1 w2).1 lp
               = some { lm with playerOne := some (if w1 > w2 then p2id else p1id) }) ∧
           (∀ y, lm.playerOne = some y → lm.playerTwo = none →
             getMatch (eliminationResult t mid w1 w2).1 lp
               = some { lm with playerTwo := some (if w1 > w2 then p2id else p1id), active := true }))))) := by
  have hid1 := getPlayer_id hp1
  have hid2 := getPlayer_id hp2
  have hchar := eliminationResult_active_eq hm hact hw hs1 hs2 hp1 hp2 hne
  set A1 : Player → Player := fun q => applyResultEntry q (elimEntryOne t.pointsForWin m w1 w2)
    with hA1
  set A2 : Player → Player := fun q => applyResultEntry q (elimEntryTwo t.pointsForWin m w1 w2)
    with hA2
  set tE := setMatch
      (setPlayer
        (setMatch
          (setPlayer
            (setMatch t mid (fun mm => { mm with result := { mm.result with playerOneWins := w1 } }))
            p1id A1)
          mid (fun mm => { mm with result := { mm.result with playerTwoWins := w2 } }))
        p2id A2)
      mid (fun mm => { mm with active := false }) with htE
  have hEm : ∀ x, x ≠ mid → getMatch tE x = getMatch t x := by
    intro x hx
    rw [htE,
      getMatch_setMatch_other (f := fun mm => { mm with active := false })
        (fun h => hx h.symm) (fun y => rfl),
      getMatch_setPlayer,
      getMatch_setMatch_other
        (f := fun mm => { mm with result := { mm.result with playerTwoWins := w2 } })
        (fun h => hx h.symm) (fun y => rfl),
      getMatch_setPlayer,
      getMatch_setMatch_other
        (f := fun mm => { mm with result := { mm.result with playerOneWins := w1 } })
        (fun h => hx h.symm) (fun y => rfl)]
  have hE1 : getPlayer tE p1id = some (A1 p1) := by
    rw [htE, getPlayer_setMatch,
      getPlayer_setPlayer_other (Ne.symm hne) (fun x => by simp [hA2]),
      getPlayer_setMatch, getPlayer_setPlayer_self (by rw [getPlayer_setMatch]; exact hp1)
        (by simp [hA1])]
  have hE2 : getPlayer tE p2id = some (A2 p2) := by
    rw [htE, getPlayer_setMatch]
    have hinner : getPlayer (setPlayer
        (setMatch t mid (fun mm => { mm with result := { mm.result with playerOneWins := w1 } }))
        p1id A1) p2id = some p2 := by
      rw [getPlayer_setPlayer_other hne (fun x => by simp [hA1]), getPlayer_setMatch]
      exact hp2
    rw [getPlayer_setPlayer_self
        (t := setMatch (setPlayer
          (setMatch t mid (fun mm => { mm with result := { mm.result with playerOneWins := w1 } }))
          p1id A1) mid (fun mm => { mm with result := { mm.result with playerTwoWins := w2 } }))
        (by rw [getPlayer_setMatch]; exact hinner) (by simp [hA2])]
  rw [hchar]
  constructor
  · -- (c): grand final
    intro hwnone
    unfold elimRoute
    simp only [hwnone]
    refine ⟨trivial, trivial, ?_⟩
    by_cases hgt : w1 > w2
    · simp only [if_pos hgt]
      have : getPlayer { tE with status := Status.finished } p2id = getPlayer tE p2id := rfl
      rw [this, hE2]
      simp [hA2]
    · simp only [if_neg hgt]
      have : getPlayer { tE with status := Status.finished } p1id = getPlayer tE p1id := rfl
      rw [this, hE1]
      simp [hA1]
  · -- (a), (b): downstream routing
    intro wp wm hwps hwm hwpne hldisj
    have hwmE : tE.matchList.find? (fun mm => decide (mm.id = wp)) = some wm := by
      have := hEm wp hwpne
      unfold getMatch at this
      rw [this]; exact hwm
    have hwmid : wm.id = wp := getMatch_id hwm
    unfold elimRoute
    simp only [hwps, hwmE]
    -- the state after the winner placement, in each of the three cases
    refine ⟨?_, ?_, ?_, ?_⟩
    · -- (a) winner into empty playerOne
      intro hw1none
      simp only [if_pos hw1none]
      have hplace : getMatch (setMatch tE wm.id
          (fun mm => { mm with playerOne := some (if w1 > w2 then p1id else p2id) })) wp
          = some { wm with playerOne := some (if w1 > w2 then p1id else p2id) } := by
        rw [← hwmid]
        exact getMatch_setMatch_self
          (f := fun mm => { mm with playerOne := some (if w1 > w2 then p1id else p2id) })
          (by rw [hwmid, hEm wp hwpne]; exact hwm) rfl
      rcases hldisj with hlnone | ⟨lp, hlps, hlpmid, hlpwp, hlpsome⟩
      · simp only [hlnone]
        rw [getMatch_setPlayer]
        exact hplace
      · simp only [hlps]
        have hlmF : ((setMatch tE wm.id
            (fun mm => { mm with playerOne := some (if w1 > w2 then p1id else p2id) })).matchList.find?
            (fun mm => decide (mm.id = lp))).isSome = true := by
          have hlpE : (getMatch tE lp).isSome = true := by
            rw [hEm lp hlpmid]; exact hlpsome
          have h := @getMatch_setMatch_isSome tE wm.id lp
            (fun mm => { mm with playerOne := some (if w1 > w2 then p1id else p2id) })
            (fun x => rfl)
          unfold getMatch at h
          rw [h]
          exact hlpE
        obtain ⟨lm', hlm'⟩ := Option.isSome_iff_exists.mp hlmF
        simp only [hlm']
        have hlmid' : lm'.id = lp := by
          have := List.find?_some hlm'
          simpa using this
        by_cases hc1 : lm'.playerOne = none
        · simp only [if_pos hc1]
          rw [getMatch_setMatch_other
            (f := fun mm => { mm with playerOne := some (if w1 > w2 then p2id else p1id) })
            (by rw [hlmid']; exact hlpwp) (fun x => rfl)]
          exact hplace
        · by_cases hc2 : lm'.playerTwo = none
          · simp only [if_neg hc1, if_pos hc2]
            rw [getMatch_setMatch_other
              (f := fun mm => { mm with playerTwo := some (if w1 > w2 then p2id else p1id), active := true })
              (by rw [hlmid']; exact hlpwp) (fun x => rfl)]
            exact hplace
          · simp only [if_neg hc1, if_neg hc2]
            exact hplace
    · -- (a) winner into empty playerTwo, activating the match
      intro x hx1 hx2
      have hw1ne : ¬ wm.playerOne = none := by simp [hx1]
      simp only [if_neg hw1ne, if_pos hx2]
      have hplace : getMatch (setMatch tE wm.id
          (fun mm => { mm with playerTwo := some (if w1 > w2 then p1id else p2id), active := true })) wp
          = some { wm with playerTwo := some (if w1 > w2 then p1id else p2id), active := true } := by
        rw [← hwmid]
        exact getMatch_setMatch_self
          (f := fun mm => { mm with playerTwo := some (if w1 > w2 then p1id else p2id), active := true })
          (by rw [hwmid, hEm wp hwpne]; exact hwm) rfl
      rcases hldisj with hlnone | ⟨lp, hlps, hlpmid, hlpwp, hlpsome⟩
      · simp only [hlnone]
        rw [getMatch_setPlayer]
        exact hplace
      · simp only [hlps]
        have hlmF : ((setMatch tE wm.id
            (fun mm => { mm with playerTwo := some (if w1 > w2 then p1id else p2id), active := true })).matchList.find?
            (fun mm => decide (mm.id = lp))).isSome = true := by
          have hlpE : (getMatch tE lp).isSome = true := by
            rw [hEm lp hlpmid]; exact hlpsome
          have h := @getMatch_setMatch_isSome tE wm.id lp
            (fun mm => { mm with playerTwo := some (if w1 > w2 then p1id else p2id), active := true })
            (fun x => rfl)
          unfold getMatch at h
          rw [h]
          exact hlpE
        obtain ⟨lm', hlm'⟩ := Option.isSome_iff_exists.mp hlmF
        simp only [hlm']
        have hlmid' : lm'.id = lp := by
          have := List.find?_some hlm'
          simpa using this
        by_cases hc1 : lm'.playerOne = none
        · simp only [if_pos hc1]
          rw [getMatch_setMatch_other
            (f := fun mm => { mm with playerOne := some (if w1 > w2 then p2id else p1id) })
            (by rw [hlmid']; exact hlpwp) (fun x => rfl)]
          exact hplace
        · by_cases hc2 : lm'.playerTwo = none
          · simp only [if_neg hc1, if_pos hc2]
            rw [getMatch_setMatch_other
              (f := fun mm => { mm with playerTwo := some (if w1 > w2 then p2id else p1id), active := true })
              (by rw [hlmid']; exact hlpwp) (fun x => rfl)]
            exact hplace
          · simp only [if_neg hc1, if_neg hc2]
            exact hplace
    · -- (b) loser deactivated when losersPath is empty
      intro hlnone
      simp only [hlnone]
      constructor
      · trivial
      · by_cases hgt : w1 > w2
        · simp only [if_pos hgt]
          split_ifs with hc1 hc2
          · rw [getPlayer_setPlayer_self (p := A2 p2) (by rw [getPlayer_setMatch]; exact hE2)
              (by simp)]
            rfl
          · rw [getPlayer_setPlayer_self (p := A2 p2) (by rw [getPlayer_setMatch]; exact hE2)
              (by simp)]
            rfl
          · rw [getPlayer_setPlayer_self (p := A2 p2) hE2 (by simp)]
            rfl
        · simp only [if_neg hgt]
          split_ifs with hc1 hc2
          · rw [getPlayer_setPlayer_self (p := A1 p1) (by rw [getPlayer_setMatch]; exact hE1)
              (by simp)]
            rfl
          · rw [getPlayer_setPlayer_self (p := A1 p1) (by rw [getPlayer_setMatch]; exact hE1)
              (by simp)]
            rfl
          · rw [getPlayer_setPlayer_self (p := A1 p1) hE1 (by simp)]
            rfl
    · -- (b) loser placed along losersPath
      intro lp lm hlps hlm hlpmid hlpwp
      simp only [hlps]
      have hlmE : getMatch tE lp = some lm := by rw [hEm lp hlpmid]; exact hlm
      have hlmid : lm.id = lp := getMatch_id hlm
      -- the winner placement step preserves the lp lookup
      have hFl : ∀ (f : Match → Match), (∀ x, (f x).id = x.id) →
          getMatch (setMatch tE wm.id f) lp = some lm := by
        intro f hf
        rw [getMatch_setMatch_other (by rw [hwmid]; exact fun h => hlpwp h.symm) hf]
        exact hlmE
      have hwin1 := hFl (fun mm => { mm with playerOne := some (if w1 > w2 then p1id else p2id) })
        (fun x => rfl)
      have hwin1' := hwin1
      unfold getMatch at hwin1'
      have hwin2 := hFl (fun mm => { mm with playerTwo := some (if w1 > w2 then p1id else p2id), active := true })
        (fun x => rfl)
      have hwin2' := hwin2
      unfold getMatch at hwin2'
      have hlmE' : tE.matchList.find? (fun mm => decide (mm.id = lp)) = some lm := hlmE
      constructor
      · intro hl1none
        by_cases hc1 : wm.playerOne = none
        · simp only [if_pos hc1, hwin1', if_pos hl1none]
          rw [← hlmid]
          exact getMatch_setMatch_self
            (f := fun mm => { mm with playerOne := some (if w1 > w2 then p2id else p1id) })
            (by rw [hlmid]; exact hwin1) rfl
        · by_cases hc2 : wm.playerTwo = none
          · simp only [if_neg hc1, if_pos hc2, hwin2', if_pos hl1none]
            rw [← hlmid]
            exact getMatch_setMatch_self
              (f := fun mm => { mm with playerOne := some (if w1 > w2 then p2id else p1id) })
              (by rw [hlmid]; exact hwin2) rfl
          · simp only [if_neg hc1, if_neg hc2, hlmE', if_pos hl1none]
            rw [← hlmid]
            exact getMatch_setMatch_self
              (f := fun mm => { mm with playerOne := some (if w1 > w2 then p2id else p1id) })
              (by rw [hlmid]; exact hlmE) rfl
      · intro y hy1 hy2
        have hl1ne : ¬ lm.playerOne = none := by simp [hy1]
        by_cases hc1 : wm.playerOne = none
        · simp only [if_pos hc1, hwin1', if_neg hl1ne, if_pos hy2]
          rw [← hlmid]
          exact getMatch_setMatch_self
            (f := fun mm => { mm with playerTwo := some (if w1 > w2 then p2id else p1id), active := true })
            (by rw [hlmid]; exact hwin1) rfl
        · by_cases hc2 : wm.playerTwo = none
          · simp only [if_neg hc1, if_pos hc2, hwin2', if_neg hl1ne, if_pos hy2]
            rw [← hlmid]
            exact getMatch_setMatch_self
              (f := fun mm => { mm with playerTwo := some (if w1 > w2 then p2id else p1id), active := true })
              (by rw [hlmid]; exact hwin2) rfl
          · simp only [if_neg hc1, if_neg hc2, hlmE', if_neg hl1ne, if_pos hy2]
            rw [← hlmid]
            exact getMatch_setMatch_self
              (f := fun mm => { mm with playerTwo := some (if w1 > w2 then p2id else p1id), active := true })
              (by rw [hlmid]; exact hlmE) rfl

/-- C4 witness: the routing theorem applied to the grand-final fixture
`gfT`. -/
theorem c4_witness :
    (eliminationResult gfT "gf" 2 1).2 = none ∧
      (eliminationResult gfT "gf" 2 1).1.status = Status.finished := by
  have h := (c4_elimination_routing gfT "gf" 2 1 (mkM "gf" (some "a") (some "b") true)
    "a" "b" (mkP "a" true) (mkP "b" true) (by decide) (by decide) (by decide) (by decide)
    (by decide) (by decide) (by decide) (by decide)).1 rfl
  exact ⟨h.1, h.2.1⟩

/-- C4 counterexample: reporting the grand final of `gfT` succeeds and
finishes the tournament, but the loser `b` keeps `active = true`: clauses
(b) and (c) of the claim do not both hold for the grand final, whose loser
is never deactivated because the source returns right after setting the
status. -/
theorem c4_counterexample :
    (eliminationResult gfT "gf" 2 1).2 = none ∧
      (eliminationResult gfT "gf" 2 1).1.status = Status.finished ∧
      (getPlayer (eliminationResult gfT "gf" 2 1).1 "b").map Player.active = some true := by
  decide

end C4

section ByesLemmas

/-- The swiss bye loop succeeds when every bye's `playerOne` resolves to an
enrolled player. -/
theorem swissByesGo_success : ∀ (bs : List Match) (t : Tournament),
    (∀ b ∈ bs, ∃ pid, b.playerOne = some pid ∧ (getPlayer t pid).isSome = true) →
    (swissByesGo t bs).2 = none := by
  intro bs
  induction bs with
  | nil => intro t _; rfl
  | cons b rest ih =>
    intro t h
    obtain ⟨pid, hb1, hbp⟩ := h b (by simp)
    obtain ⟨p, hp⟩ := Option.isSome_iff_exists.mp hbp
    unfold swissByesGo
    simp only [hb1, getPlayerOpt, hp]
    apply ih
    intro b' hb'
    obtain ⟨pid', hb1', hbp'⟩ := h b' (by simp [hb'])
    refine ⟨pid', hb1', ?_⟩
    rw [getPlayer_setMatch,
      getPlayer_setPlayer_isSome (f := applyByeEntry t.pointsForWin t.bestOf b.id b.round)
        (fun x => by simp)]
    exact hbp'

/-- The round-robin bye loop succeeds when every bye either is skipped (in
the `nextRound` variant) or resolves its occupied slot to an enrolled
player. -/
theorem rrByesGo_success : ∀ (bs : List Match) (t : Tournament) (sk : Bool),
    (∀ b ∈ bs, (sk = true ∧ b.playerOne = none ∧ b.playerTwo = none) ∨
      ∃ pid, (if b.playerTwo = none then b.playerOne else b.playerTwo) = some pid ∧
        (getPlayer t pid).isSome = true) →
    (rrByesGo sk t bs).2 = none := by
  intro bs
  induction bs with
  | nil => intro t sk _; rfl
  | cons b rest ih =>
    intro t sk h
    unfold rrByesGo
    by_cases hskip : sk = true ∧ b.playerOne = none ∧ b.playerTwo = none
    · simp only [if_pos hskip]
      apply ih
      intro b' hb'
      exact h b' (by simp [hb'])
    · simp only [if_neg hskip]
      rcases h b (by simp) with hsk | ⟨pid, hslot, hbp⟩
      · exact absurd hsk hskip
      · obtain ⟨p, hp⟩ := Option.isSome_iff_exists.mp hbp
        simp only [hslot, getPlayerOpt, hp]
        by_cases h2 : b.playerTwo = none
        · simp only [if_pos h2]
          apply ih
          intro b' hb'
          rcases h b' (by simp [hb']) with hsk' | ⟨pid', hslot', hbp'⟩
          · exact Or.inl hsk'
          · refine Or.inr ⟨pid', hslot', ?_⟩
            rw [getPlayer_setMatch,
              getPlayer_setPlayer_isSome (f := applyByeEntry t.pointsForWin t.bestOf b.id b.round)
                (fun x => by simp)]
            exact hbp'
        · simp only [if_neg h2]
          apply ih
          intro b' hb'
          rcases h b' (by simp [hb']) with hsk' | ⟨pid', hslot', hbp'⟩
          · exact Or.inl hsk'
          · refine Or.inr ⟨pid', hslot', ?_⟩
            rw [getPlayer_setMatch,
              getPlayer_setPlayer_isSome (f := applyByeEntry t.pointsForWin t.bestOf b.id b.round)
                (fun x => by simp)]
            exact hbp'

/-- Matches and players not named by any bye of the list are untouched by
the swiss bye loop. -/
theorem swissByesGo_untouched : ∀ (bs : List Match) (t : Tournament) (x y : String),
    (∀ b ∈ bs, b.id ≠ x) → (∀ b ∈ bs, b.playerOne ≠ some y) →
    getMatch (swissByesGo t bs).1 x = getMatch t x ∧
      getPlayer (swissByesGo t bs).1 y = getPlayer t y := by
  intro bs
  induction bs with
  | nil => intro t x y _ _; exact ⟨rfl, rfl⟩
  | cons b rest ih =>
    intro t x y hx hy
    unfold swissByesGo
    cases hb1 : b.playerOne with
    | none => exact ⟨rfl, rfl⟩
    | some pid =>
      simp only [getPlayerOpt]
      cases hp : getPlayer t pid with
      | none => exact ⟨rfl, rfl⟩
      | some p =>
        have hpid := getPlayer_id hp
        obtain ⟨h1, h2⟩ := ih
          (setMatch (setPlayer t p.id (applyByeEntry t.pointsForWin t.bestOf b.id b.round)) b.id
            (fun mm => { mm with result := { mm.result with playerOneWins := ceilHalf t.bestOf } }))
          x y (fun b' hb' => hx b' (by simp [hb'])) (fun b' hb' => hy b' (by simp [hb']))
        rw [h1, h2]
        constructor
        · rw [getMatch_setMatch_other
            (f := fun mm => { mm with result := { mm.result with playerOneWins := ceilHalf t.bestOf } })
            (hx b (by simp)) (fun z => rfl), getMatch_setPlayer]
        · rw [getPlayer_setMatch,
            getPlayer_setPlayer_other
              (f := applyByeEntry t.pointsForWin t.bestOf b.id b.round)
              (by rw [hpid]; intro hcon; exact hy b (by simp) (by rw [hb1, hcon])) (fun z => by simp)]

/-- Per-bye specification of the swiss bye loop: each bye match gets its
result written and its lone player the bye award, provided ids are unique,
the byes name pairwise-distinct players, and every bye resolves. -/
theorem swissByesGo_spec : ∀ (bs : List Match) (t : Tournament) (pfw : Rat) (bo : Int),
    t.pointsForWin = pfw → t.bestOf = bo →
    (∀ b ∈ bs, t.matchList.find? (fun mm => decide (mm.id = b.id)) = some b) →
    (∀ b ∈ bs, ∃ pid p, b.playerOne = some pid ∧ getPlayer t pid = some p) →
    bs.Pairwise (fun b b' => b.id ≠ b'.id) →
    bs.Pairwise (fun b b' => b.playerOne ≠ b'.playerOne) →
    ∀ b ∈ bs, ∀ pid p, b.playerOne = some pid → getPlayer t pid = some p →
      getMatch (swissByesGo t bs).1 b.id
        = some { b with result := { b.result with playerOneWins := ceilHalf bo } } ∧
      getPlayer (swissByesGo t bs).1 pid = some (applyByeEntry pfw bo b.id b.round p) := by
  intro bs
  induction bs with
  | nil => intro t pfw bo _ _ _ _ _ _ b hb; simp at hb
  | cons b0 rest ih =>
    intro t pfw bo hpfw hbo hfind hres hids hpos b hb pid p hb1 hp
    have hpid := getPlayer_id hp
    rcases List.mem_cons.mp hb with rfl | hbr
    · -- the head bye: compute its step, the rest leaves it untouched
      unfold swissByesGo
      simp only [hb1, getPlayerOpt, hp]
      have hx : ∀ b' ∈ rest, b'.id ≠ b.id :=
        fun b' hb' => fun hcon => (List.pairwise_cons.mp hids).1 b' hb' hcon.symm
      have hy : ∀ b' ∈ rest, b'.playerOne ≠ some pid := by
        intro b' hb' hcon
        exact (List.pairwise_cons.mp hpos).1 b' hb' (by rw [hb1, hcon])
      obtain ⟨h1, h2⟩ := swissByesGo_untouched rest
        (setMatch (setPlayer t p.id (applyByeEntry t.pointsForWin t.bestOf b.id b.round)) b.id
          (fun mm => { mm with result := { mm.result with playerOneWins := ceilHalf t.bestOf } }))
        b.id pid hx hy
      rw [h1, h2]
      constructor
      · have hin : getMatch (setPlayer t p.id (applyByeEntry t.pointsForWin t.bestOf b.id b.round))
            b.id = some b := by
          rw [getMatch_setPlayer]
          exact hfind b (by simp)
        rw [getMatch_setMatch_self
          (f := fun mm => { mm with result := { mm.result with playerOneWins := ceilHalf t.bestOf } })
          hin rfl, hbo]
        simp [hb1]
      · rw [getPlayer_setMatch, hpid,
          getPlayer_setPlayer_self (f := applyByeEntry t.pointsForWin t.bestOf b.id b.round)
            hp (by simp),
          hpfw, hbo]
    · -- a later bye: the head step preserves all the hypotheses
      obtain ⟨pid0, p0, hb01, hp0⟩ := hres b0 (by simp)
      have hpid0 := getPlayer_id hp0
      have hne0 : pid0 ≠ pid := by
        intro hcon
        exact (List.pairwise_cons.mp hpos).1 b hbr (by rw [hb01, hb1, hcon])
      unfold swissByesGo
      simp only [hb01, getPlayerOpt, hp0]
      refine ih
        (setMatch (setPlayer t p0.id (applyByeEntry t.pointsForWin t.bestOf b0.id b0.round)) b0.id
          (fun mm => { mm with result := { mm.result with playerOneWins := ceilHalf t.bestOf } }))
        pfw bo (by simp [hpfw]) (by simp [hbo]) ?_ ?_
        (List.pairwise_cons.mp hids).2 (List.pairwise_cons.mp hpos).2 b hbr pid p hb1 ?_
      · intro b' hb'
        show (updateFirst (fun mm => decide (mm.id = b0.id))
            (fun mm => { mm with result := { mm.result with playerOneWins := ceilHalf t.bestOf } })
            t.matchList).find? (fun mm => decide (mm.id = b'.id)) = some b'
        rw [find?_updateFirst_other (fun x _ hx0 => ?_)]
        · exact hfind b' (by simp [hb'])
        · have hxid : x.id = b0.id := by simpa using hx0
          have hne' : b0.id ≠ b'.id := (List.pairwise_cons.mp hids).1 b' hb'
          constructor
          · simp [hxid, hne']
          · simp [hxid, hne']
      · intro b' hb'
        obtain ⟨pid', p', hb1', hp'⟩ := hres b' (by simp [hb'])
        refine ⟨pid', p', hb1', ?_⟩
        rw [getPlayer_setMatch, hpid0,
          getPlayer_setPlayer_other
            (f := applyByeEntry t.pointsForWin t.bestOf b0.id b0.round)
            ?_ (fun z => by simp)]
        · exact hp'
        · intro hcon
          exact (List.pairwise_cons.mp hpos).1 b' hb' (by rw [hb01, hb1', hcon])
      · rw [getPlayer_setMatch, hpid0,
          getPlayer_setPlayer_other
            (f := applyByeEntry t.pointsForWin t.bestOf b0.id b0.round)
            hne0 (fun z => by simp)]
        exact hp

/-- A player id occurring in `players` resolves. -/
theorem getPlayer_isSome_of_any {t : Tournament} {pid : String}
    (h : (t.players.any (fun p => decide (p.id = pid))) = true) :
    (getPlayer t pid).isSome = true := by
  obtain ⟨x, hx, hpx⟩ := List.any_eq_true.mp h
  unfold getPlayer
  cases hfind : t.players.find? (fun p => decide (p.id = pid)) with
  | some _ => rfl
  | none => exact absurd hpx (by simpa using List.find?_eq_none.mp hfind x hx)

/-- The swiss bye loop does not change the tournament status. -/
theorem swissByesGo_status : ∀ (bs : List Match) (t : Tournament),
    (swissByesGo t bs).1.status = t.status := by
  intro bs
  induction bs with
  | nil => intro t; rfl
  | cons b rest ih =>
    intro t
    unfold swissByesGo
    cases hpo : getPlayerOpt t b.playerOne with
    | none => rfl
    | some p =>
      rw [ih]
      simp

/-- The round-robin bye loop does not change the tournament status. -/
theorem rrByesGo_status : ∀ (bs : List Match) (sk : Bool) (t : Tournament),
    (rrByesGo sk t bs).1.status = t.status := by
  intro bs
  induction bs with
  | nil => intro sk t; rfl
  | cons b rest ih =>
    intro sk t
    unfold rrByesGo
    by_cases hskip : sk = true ∧ b.playerOne = none ∧ b.playerTwo = none
    · simp only [if_pos hskip]
      exact ih sk t
    · simp only [if_neg hskip]
      cases hpo : getPlayerOpt t (if b.playerTwo = none then b.playerOne else b.playerTwo) with
      | none => rfl
      | some p =>
        by_cases h2 : b.playerTwo = none
        · simp only [if_pos h2]
          rw [ih]
          simp
        · simp only [if_neg h2]
          rw [ih]
          simp

end ByesLemmas

section C7

/-- C7 (amended).  From registration (no matches yet), with the absent
pairing module modelled from the spec as a pure function whose byes name
enrolled players: `Swiss.startEvent` fails (leaving the state unchanged)
with the 8-player message iff fewer than 8 players are enrolled, and
otherwise succeeds with status `active`; `RoundRobin.startEvent` behaves
likewise at 4 players; `Elimination.startEvent` enforces a 4-player
minimum although its error message (`elimMinMsg`) demands at least 8
players. -/
theorem c7_start_minimums (pair : Tournament → List Match)
    (hpairS : ∀ t', ∀ b ∈ pair t', b.playerTwo = none →
      ∃ pid, b.playerOne = some pid ∧ (t'.players.any (fun p => decide (p.id = pid))) = true)
    (hpairR : ∀ t', ∀ b ∈ pair t', b.playerOne = none ∨ b.playerTwo = none →
      ∃ pid, (if b.playerTwo = none then b.playerOne else b.playerTwo) = some pid ∧
        (t'.players.any (fun p => decide (p.id = pid))) = true)
    (t : Tournament) (hml : t.matchList = []) :
    (t.players.length < 8 →
      swissStartEvent pair t = (t, some (swissMinMsg t.players.length))) ∧
    (8 ≤ t.players.length →
      (swissStartEvent pair t).2 = none ∧ (swissStartEvent pair t).1.status = Status.active) ∧
    (t.players.length < 4 →
      rrStartEvent pair t = (t, some (rrMinMsg t.players.length))) ∧
    (4 ≤ t.players.length →
      (rrStartEvent pair t).2 = none ∧ (rrStartEvent pair t).1.status = Status.active) ∧
    (t.players.length < 4 →
      elimStartEvent pair t = (t, some (elimMinMsg t.players.length))) ∧
    (4 ≤ t.players.length →
      (elimStartEvent pair t).2 = none ∧ (elimStartEvent pair t).1.status = Status.active) := by
  refine ⟨?_, ?_, ?_, ?_, ?_, ?_⟩
  · intro hlt
    unfold swissStartEvent
    rw [if_pos hlt]
  · intro h8
    unfold swissStartEvent
    rw [if_neg (by omega)]
    dsimp only
    by_cases hr : t.rounds = 0
    · rw [if_pos hr]
      constructor
      · apply swissByesGo_success
        intro b hb
        simp only [hml, List.nil_append] at hb
        have hmem := List.mem_filter.mp hb
        have hb2 : b.playerTwo = none := (of_decide_eq_true hmem.2).2
        obtain ⟨pid, hslot, hany⟩ := hpairS _ b hmem.1 hb2
        exact ⟨pid, hslot, getPlayer_isSome_of_any hany⟩
      · unfold swissProcessByes
        rw [swissByesGo_status]
    · rw [if_neg hr]
      constructor
      · apply swissByesGo_success
        intro b hb
        simp only [hml, List.nil_append] at hb
        have hmem := List.mem_filter.mp hb
        have hb2 : b.playerTwo = none := (of_decide_eq_true hmem.2).2
        obtain ⟨pid, hslot, hany⟩ := hpairS _ b hmem.1 hb2
        exact ⟨pid, hslot, getPlayer_isSome_of_any hany⟩
      · unfold swissProcessByes
        rw [swissByesGo_status]
  · intro hlt
    unfold rrStartEvent
    rw [if_pos hlt]
  · intro h4
    unfold rrStartEvent
    rw [if_neg (by omega)]
    constructor
    · apply rrByesGo_success
      intro b hb
      simp only [hml, List.nil_append] at hb
      have hmem := List.mem_filter.mp hb
      have hb2 : b.playerOne = none ∨ b.playerTwo = none := (of_decide_eq_true hmem.2).2
      obtain ⟨pid, hslot, hany⟩ := hpairR _ b hmem.1 hb2
      exact Or.inr ⟨pid, hslot, getPlayer_isSome_of_any hany⟩
    · unfold rrProcessByes
      rw [rrByesGo_status]
  · intro hlt
    unfold elimStartEvent
    rw [if_pos hlt]
  · intro h4
    unfold elimStartEvent
    rw [if_neg (by omega)]
    exact ⟨rfl, rfl⟩

/-- C7 witness: the amended theorem applied to the eight-player swiss
fixture `c7s` and the three-player elimination fixture `c7a`, with the
empty pairing. -/
theorem c7_witness :
    (swissStartEvent (fun _ => []) c7s).2 = none ∧
      (swissStartEvent (fun _ => []) c7s).1.status = Status.active ∧
      elimStartEvent (fun _ => []) c7a = (c7a, some (elimMinMsg 3)) := by
  have hS := c7_start_minimums (fun _ => [])
    (fun _ b hb _ => absurd hb (List.not_mem_nil b))
    (fun _ b hb _ => absurd hb (List.not_mem_nil b)) c7s rfl
  have hA := c7_start_minimums (fun _ => [])
    (fun _ b hb _ => absurd hb (List.not_mem_nil b))
    (fun _ b hb _ => absurd hb (List.not_mem_nil b)) c7a rfl
  exact ⟨(hS.2.1 (by decide)).1, (hS.2.1 (by decide)).2, hA.2.2.2.2.1 (by decide)⟩

/-- C7 counterexample: with three players enrolled, `Elimination.startEvent`
raises an error whose text demands at least 8 players, yet with four
players it succeeds — the threshold stated by the error does not match the
enforced one, refuting the claim. -/
theorem c7_counterexample :
    (elimStartEvent (fun _ => []) c7a).2 = some (elimMinMsg 3) ∧
      elimMinMsg 3
        = "Elimination tournaments require at least 8 players, and there are currently 3 players enrolled" ∧
      (elimStartEvent (fun _ => []) c7b).2 = none ∧
      (elimStartEvent (fun _ => []) c7b).1.status = Status.active := by
  refine ⟨rfl, rfl, rfl, rfl⟩

end C7

section C8

/-- C8: after swiss pairing, every current-round match with `playerTwo =
none` is materialised — provided match ids are unique, each such bye match
names pairwise-distinct lone players, and each lone player resolves.  The
bye match's result records `⌈bestOf/2⌉` wins for `playerOne`, and the lone
player receives a results entry with outcome `bye`, `⌈bestOf/2⌉` games and
`⌈bestOf/2⌉·pointsForWin` game points, plus `pointsForWin` match points,
one match counted, and `pairingBye = true`. -/
theorem c8_swiss_bye_materialisation (t : Tournament)
    (hnids : (t.matchList.map Match.id).Nodup)
    (hres : ∀ b ∈ t.matchList.filter
        (fun m => decide (m.round = t.currentRound ∧ m.playerTwo = none)),
      ∃ pid p, b.playerOne = some pid ∧ getPlayer t pid = some p)
    (hpos : (t.matchList.filter
        (fun m => decide (m.round = t.currentRound ∧ m.playerTwo = none))).Pairwise
      (fun b b' => b.playerOne ≠ b'.playerOne)) :
    ∀ b ∈ t.matchList, b.round = t.currentRound → b.playerTwo = none →
      ∀ pid p, b.playerOne = some pid → getPlayer t pid = some p →
        getMatch (swissProcessByes t).1 b.id
          = some { b with result := { b.result with playerOneWins := ceilHalf t.bestOf } } ∧
        getPlayer (swissProcessByes t).1 pid
          = some { p with
              results := p.results ++ [{
                matchId := b.id, round := b.round, opponent := none,
                outcome := Outcome.bye, matchPoints := t.pointsForWin,
                gamePoints := (ceilHalf t.bestOf : Rat) * t.pointsForWin,
                games := ceilHalf t.bestOf }],
              pairingBye := true,
              matchCount := p.matchCount + 1,
              matchPoints := p.matchPoints + t.pointsForWin,
              gameCount := p.gameCount + ceilHalf t.bestOf,
              gamePoints := p.gamePoints + (ceilHalf t.bestOf : Rat) * t.pointsForWin } := by
  intro b hb hbr hb2 pid p hb1 hp
  have hbf : b ∈ t.matchList.filter
      (fun m => decide (m.round = t.currentRound ∧ m.playerTwo = none)) :=
    List.mem_filter.mpr ⟨hb, by simp [hbr, hb2]⟩
  have hfind : ∀ b' ∈ t.matchList.filter
      (fun m => decide (m.round = t.currentRound ∧ m.playerTwo = none)),
      t.matchList.find? (fun mm => decide (mm.id = b'.id)) = some b' := by
    intro b' hb'
    exact find?_eq_of_mem_nodup hnids (List.mem_filter.mp hb').1
  have hids : (t.matchList.filter
      (fun m => decide (m.round = t.currentRound ∧ m.playerTwo = none))).Pairwise
      (fun b b' => b.id ≠ b'.id) :=
    (List.pairwise_map.mp hnids).sublist (List.filter_sublist _)
  have h := swissByesGo_spec
    (t.matchList.filter (fun m => decide (m.round = t.currentRound ∧ m.playerTwo = none)))
    t t.pointsForWin t.bestOf rfl rfl hfind hres hids hpos b hbf pid p hb1 hp
  unfold swissProcessByes
  exact ⟨h.1, by rw [h.2]; rfl⟩

/-- C8 witness: the theorem applied to `c8t`, whose single round-1 match is
a bye for player `a`: the match result becomes 1-0 and player `a` gets the
bye entry and awards. -/
theorem c8_witness :
    getMatch (swissProcessByes c8t).1 "m"
      = some { mkM "m" (some "a") none false with
          result := { playerOneWins := 1, playerTwoWins := 0, draws := 0 } } ∧
    getPlayer (swissProcessByes c8t).1 "a"
      = some { mkP "a" true with
          results := (mkP "a" true).results ++ [{
            matchId := "m", round := 1,
            opponent := none, outcome := Outcome.bye,
            matchPoints := c8t.pointsForWin,
            gamePoints := (ceilHalf c8t.bestOf : Rat) * c8t.pointsForWin,
            games := ceilHalf c8t.bestOf }],
          pairingBye := true,
          matchCount := (mkP "a" true).matchCount + 1,
          matchPoints := (mkP "a" true).matchPoints + c8t.pointsForWin,
          gameCount := (mkP "a" true).gameCount + ceilHalf c8t.bestOf,
          gamePoints := (mkP "a" true).gamePoints
            + (ceilHalf c8t.bestOf : Rat) * c8t.pointsForWin } := by
  have h := c8_swiss_bye_materialisation c8t (by decide)
    (by
      intro b hb
      have hbm := (List.mem_filter.mp hb).1
      have : b = mkM "m" (some "a") none false := by
        simpa [c8t, mkT] using hbm
      subst this
      exact ⟨"a", mkP "a" true, rfl, by decide⟩)
    (by
      have : c8t.matchList.filter
          (fun m => decide (m.round = c8t.currentRound ∧ m.playerTwo = none))
          = [mkM "m" (some "a") none false] := by decide
      rw [this]
      exact List.pairwise_singleton _ _)
    (mkM "m" (some "a") none false) (by decide) rfl rfl "a" (mkP "a" true) rfl (by decide)
  exact h

end C8

section C2

/-- C2: refuted on the code — `eraseResult` during playoffs is not
transactional.  On `c2t` (playoffs, the only match a materialised bye for
the withdrawn player `a`), erasing the bye raises a TypeError, yet the
returned state has already reactivated player `a`: the bracket pull-back
mutates before the bye validation would run, so a failed call leaves a
partial update. -/
theorem c2_erase_playoffs_mutates_before_validation :
    (eraseResultOuter c2t "m").2 = some typeErrorMsg ∧
    (getPlayer (eraseResultOuter c2t "m").1 "a").map Player.active = some true ∧
    (getPlayer c2t "a").map Player.active = some false ∧
    (eraseResultOuter c2t "m").1 ≠ c2t := by
  refine ⟨by decide, by decide, by decide, ?_⟩
  intro h
  have hc := congrArg (fun s => (getPlayer s "a").map Player.active) h
  exact absurd hc (by decide)

end C2

section C3

/-- C3: refuted on the code — the status guard of `Tournament.newPlayer`
compares the lowercase status against the capitalised strings
`"Playoffs"`, `"Aborted"`, `"Finished"`, so it never fires for any status;
whenever the limit, duplicate-id and late-add guards pass, the player is
appended even while the tournament is in playoffs, aborted or finished. -/
theorem c3_addPlayer_status_guard_dead (t : Tournament) (aliasName pid : String)
    (seed initialByes : Int) :
    (["Playoffs", "Aborted", "Finished"].any
        (fun s => decide (s = statusString t.status))) = false ∧
    (¬(t.playerLimit > 0 ∧ (t.players.length : Int) = t.playerLimit) →
      ¬ t.players.any (fun p => decide (p.id = pid)) = true →
      ¬(t.status ≠ Status.registration ∧ t.format ≠ Format.swiss) →
      newPlayer t aliasName pid seed initialByes
        = ({ t with players := t.players ++ [defaultPlayer pid aliasName seed initialByes] },
           none)) := by
  have hdead : (["Playoffs", "Aborted", "Finished"].any
      (fun s => decide (s = statusString t.status))) = false := by
    cases t.status <;> decide
  refine ⟨hdead, ?_⟩
  intro h1 h2 h3
  unfold newPlayer
  rw [if_neg h1, if_neg (by simp [hdead]), if_neg h2, if_neg h3]

/-- C3 witness: adding player `z` to the finished tournament `c3t`
succeeds and appends the player, because the status guard never fires. -/
theorem c3_witness :
    (["Playoffs", "Aborted", "Finished"].any
        (fun s => decide (s = statusString c3t.status))) = false ∧
    newPlayer c3t "z" "z" 0 0
      = ({ c3t with players := c3t.players ++ [defaultPlayer "z" "z" 0 0] }, none) :=
  ⟨(c3_addPlayer_status_guard_dead c3t "z" "z" 0 0).1,
   (c3_addPlayer_status_guard_dead c3t "z" "z" 0 0).2 (by decide) (by decide) (by decide)⟩

end C3

section C6

theorem nullSlot_id (pid : String) (mm : Match) : (nullSlot pid mm).id = mm.id := by
  unfold nullSlot
  split_ifs <;> rfl

theorem nullSlot_round (pid : String) (mm : Match) : (nullSlot pid mm).round = mm.round := by
  unfold nullSlot
  split_ifs <;> rfl

/-- Specification of the future-round loop of `RoundRobin.removePlayer`:
when every round in the window resolves to a match holding the player, the
loop succeeds, empties the player's slot in the first such match of every
round in the window, and leaves every match whose round lies outside the
window untouched. -/
theorem rrFutureLoop_spec (pid : String) : ∀ (n : Nat) (t : Tournament) (i : Int),
    (t.matchList.map Match.id).Nodup →
    (∀ j : Int, i ≤ j → j < i + (n : Int) →
      ∃ fm ∈ t.matchList, fm.round = j ∧ (fm.playerOne = some pid ∨ fm.playerTwo = some pid)) →
    (rrFutureLoop pid t i n).2 = none ∧
    (∀ x : String, (∀ mm ∈ t.matchList, mm.id = x → mm.round < i ∨ i + (n : Int) ≤ mm.round) →
      getMatch (rrFutureLoop pid t i n).1 x = getMatch t x) ∧
    (∀ j : Int, i ≤ j → j < i + (n : Int) → ∀ fm : Match,
      t.matchList.find? (fun m =>
        decide (m.round = j ∧ (m.playerOne = some pid ∨ m.playerTwo = some pid))) = some fm →
      getMatch (rrFutureLoop pid t i n).1 fm.id = some (nullSlot pid fm)) := by
  intro n
  induction n with
  | zero =>
    intro t i _ _
    exact ⟨rfl, fun x _ => rfl, fun j hj1 hj2 fm _ => absurd hj2 (by omega)⟩
  | succ n ih =>
    intro t i hnids hres
    have hinj := List.inj_on_of_nodup_map hnids
    obtain ⟨g0, hg0m, hg0r, hg0s⟩ := hres i le_rfl (by omega)
    cases hfind : t.matchList.find? (fun m =>
        decide (m.round = i ∧ (m.playerOne = some pid ∨ m.playerTwo = some pid))) with
    | none =>
      have hcon := List.find?_eq_none.mp hfind g0 hg0m
      exact absurd (by simpa using And.intro hg0r hg0s) hcon
    | some fm₀ =>
      have hfm₀p := List.find?_some hfind
      have hfm₀m := List.mem_of_find?_eq_some hfind
      have hfm₀r : fm₀.round = i := (of_decide_eq_true hfm₀p).1
      have hids1 : (((setMatch t fm₀.id (nullSlot pid)).matchList).map Match.id).Nodup := by
        show ((updateFirst (fun mm => decide (mm.id = fm₀.id)) (nullSlot pid)
          t.matchList).map Match.id).Nodup
        rw [map_updateFirst_eq (fun x => nullSlot_id pid x)]
        exact hnids
      have hres1 : ∀ j : Int, i + 1 ≤ j → j < i + 1 + (n : Int) →
          ∃ fm ∈ (setMatch t fm₀.id (nullSlot pid)).matchList,
            fm.round = j ∧ (fm.playerOne = some pid ∨ fm.playerTwo = some pid) := by
        intro j hj1 hj2
        obtain ⟨fm, hfmm, hfmr, hfms⟩ := hres j (by omega) (by omega)
        have hne : fm.id ≠ fm₀.id := by
          intro hcon
          have heq : fm = fm₀ := hinj hfmm hfm₀m hcon
          rw [heq] at hfmr
          omega
        refine ⟨fm, ?_, hfmr, hfms⟩
        show fm ∈ updateFirst (fun mm => decide (mm.id = fm₀.id)) (nullSlot pid) t.matchList
        exact mem_updateFirst_of_pred_false hfmm (by simp [hne])
      obtain ⟨ihS, ihU, ihN⟩ := ih (setMatch t fm₀.id (nullSlot pid)) (i + 1) hids1 hres1
      refine ⟨?_, ?_, ?_⟩
      · show (rrFutureLoop pid t i (n + 1)).2 = none
        unfold rrFutureLoop
        simp only [hfind]
        exact ihS
      · intro x hx
        have hx1 : ∀ mm ∈ (setMatch t fm₀.id (nullSlot pid)).matchList, mm.id = x →
            mm.round < i + 1 ∨ i + 1 + (n : Int) ≤ mm.round := by
          intro mm hmm hmx
          rcases mem_updateFirst hmm with hmem | ⟨y, hy, _, rfl⟩
          · rcases hx mm hmem hmx with h | h
            · exact Or.inl (by omega)
            · exact Or.inr (by omega)
          · rw [nullSlot_round]
            rcases hx y hy (by rw [← hmx, nullSlot_id]) with h | h
            · exact Or.inl (by omega)
            · exact Or.inr (by omega)
        have hneq : fm₀.id ≠ x := by
          intro hcon
          rcases hx fm₀ hfm₀m hcon with h | h <;> omega
        show getMatch (rrFutureLoop pid t i (n + 1)).1 x = getMatch t x
        unfold rrFutureLoop
        simp only [hfind]
        rw [ihU x hx1]
        exact getMatch_setMatch_other hneq (fun z => nullSlot_id pid z)
      · intro j hj1 hj2 fm hfind'
        show getMatch (rrFutureLoop pid t i (n + 1)).1 fm.id = some (nullSlot pid fm)
        unfold rrFutureLoop
        simp only [hfind]
        by_cases hji : j = i
        · subst hji
          rw [hfind] at hfind'
          injection hfind' with heq
          subst heq
          have hx1 : ∀ mm ∈ (setMatch t fm₀.id (nullSlot pid)).matchList, mm.id = fm₀.id →
              mm.round < j + 1 ∨ j + 1 + (n : Int) ≤ mm.round := by
            intro mm hmm hmx
            rcases mem_updateFirst hmm with hmem | ⟨y, hy, _, rfl⟩
            · have heq : mm = fm₀ := hinj hmem hfm₀m hmx
              rw [heq]
              exact Or.inl (by omega)
            · have hyid : y.id = fm₀.id := by rw [← nullSlot_id pid y]; exact hmx
              have heq : y = fm₀ := hinj hy hfm₀m hyid
              rw [nullSlot_round, heq]
              exact Or.inl (by omega)
          rw [ihU fm₀.id hx1]
          have hgm : getMatch t fm₀.id = some fm₀ := by
            show t.matchList.find? (fun mm => decide (mm.id = fm₀.id)) = some fm₀
            exact find?_eq_of_mem_nodup hnids hfm₀m
          exact getMatch_setMatch_self hgm (nullSlot_id pid fm₀)
        · have hfind1 : (setMatch t fm₀.id (nullSlot pid)).matchList.find? (fun m =>
              decide (m.round = j ∧ (m.playerOne = some pid ∨ m.playerTwo = some pid)))
              = some fm := by
            show (updateFirst (fun mm => decide (mm.id = fm₀.id)) (nullSlot pid)
              t.matchList).find? _ = some fm
            rw [find?_updateFirst_other (fun x hx hpx => ?_)]
            · exact hfind'
            · have hxid : x.id = fm₀.id := by simpa using hpx
              have hxeq : x = fm₀ := hinj hx hfm₀m hxid
              subst hxeq
              constructor
              · have hnp : ¬ (x.round = j ∧ (x.playerOne = some pid ∨ x.playerTwo = some pid)) :=
                  fun h => hji (by rw [← h.1]; exact hfm₀r)
                simpa using hnp
              · have hnp : ¬ ((nullSlot pid x).round = j ∧
                    ((nullSlot pid x).playerOne = some pid ∨
                      (nullSlot pid x).playerTwo = some pid)) := by
                  rw [nullSlot_round]
                  exact fun h => hji (by rw [← h.1]; exact hfm₀r)
                simpa using hnp
          exact ihN j (by omega) (by omega) fm hfind1

theorem foldl_max_round_congr : ∀ {l l' : List Match},
    l.map Match.round = l'.map Match.round →
    ∀ a : Int, l.foldl (fun b m => max b m.round) a = l'.foldl (fun b m => max b m.round) a := by
  intro l
  induction l with
  | nil =>
    intro l' h a
    cases l' with
    | nil => rfl
    | cons y ys => simp at h
  | cons x xs ih =>
    intro l' h a
    cases l' with
    | nil => simp at h
    | cons y ys =>
      simp only [List.map_cons, List.cons.injEq] at h
      simp only [List.foldl_cons]
      rw [h.1]
      exact ih h.2 _

/-- `maxRound` depends only on the rounds of the matches. -/
theorem maxRound_eq_of_map_round {t t' : Tournament}
    (h : t.matchList.map Match.round = t'.matchList.map Match.round) :
    maxRound t = maxRound t' := by
  unfold maxRound
  exact foldl_max_round_congr h 0

/-- The future-round loop never writes the players collection. -/
theorem rrFutureLoop_players (pid : String) : ∀ (n : Nat) (t : Tournament) (i : Int),
    (rrFutureLoop pid t i n).1.players = t.players := by
  intro n
  induction n with
  | zero => intro t i; rfl
  | succ n ih =>
    intro t i
    unfold rrFutureLoop
    cases hf : t.matchList.find? (fun m =>
        decide (m.round = i ∧ (m.playerOne = some pid ∨ m.playerTwo = some pid))) with
    | none => rfl
    | some fm =>
      dsimp only
      rw [ih]
      rfl

theorem getPlayer_eq_of_players_eq {t t' : Tournament} (h : t.players = t'.players)
    (pid : String) : getPlayer t pid = getPlayer t' pid := by
  unfold getPlayer
  rw [h]

/-- Shared trace of `RoundRobin.removePlayer` once the guards have passed
and the current-round forfeit has succeeded, producing the state `t1`: the
future-round loop runs on `t1`, then the player is deactivated.  `g` is
the match write of the forfeit (id- and round-preserving). -/
theorem c6rr_run (t : Tournament) (pid : String) (player : Player) (t1 : Tournament)
    (m : Match) (g : Match → Match)
    (hp : getPlayer t pid = some player) (hact : player.active = true)
    (hst : t.status = Status.active)
    (hfound : t.matchList.find? (fun m' => decide (m'.round = t.currentRound ∧
      (m'.playerOne = some pid ∨ m'.playerTwo = some pid))) = some m)
    (hmact : m.active = true)
    (hbranch : (if m.playerOne = some pid then standardResult t m.id 0 (ceilHalf t.bestOf) 0
      else standardResult t m.id (ceilHalf t.bestOf) 0 0) = (t1, none))
    (hid : ∀ x, (g x).id = x.id) (hro : ∀ x, (g x).round = x.round)
    (hml : t1.matchList = updateFirst (fun mm => decide (mm.id = m.id)) g t.matchList)
    (hcr : t1.currentRound = t.currentRound)
    (hnids : (t.matchList.map Match.id).Nodup)
    (hres : ∀ j : Int, t.currentRound + 1 ≤ j → j < maxRound t →
      ∃ fm ∈ t.matchList, fm.round = j ∧ (fm.playerOne = some pid ∨ fm.playerTwo = some pid)) :
    rrRemovePlayer t pid
      = (setPlayer (rrFutureLoop pid t1 (t1.currentRound + 1)
          ((maxRound t1 - (t1.currentRound + 1)).toNat)).1 pid
        (fun q => { q with active := false }), none) ∧
    (rrFutureLoop pid t1 (t1.currentRound + 1)
      ((maxRound t1 - (t1.currentRound + 1)).toNat)).1.players = t1.players ∧
    getMatch (rrFutureLoop pid t1 (t1.currentRound + 1)
      ((maxRound t1 - (t1.currentRound + 1)).toNat)).1 m.id = getMatch t1 m.id ∧
    (∀ x : String, x ≠ m.id →
      (∀ mm ∈ t.matchList, mm.id = x → mm.round ≤ t.currentRound ∨ maxRound t ≤ mm.round) →
      getMatch (rrFutureLoop pid t1 (t1.currentRound + 1)
        ((maxRound t1 - (t1.currentRound + 1)).toNat)).1 x = getMatch t x) ∧
    (∀ j : Int, t.currentRound + 1 ≤ j → j < maxRound t → ∀ fm : Match,
      t.matchList.find? (fun mm => decide (mm.round = j ∧
        (mm.playerOne = some pid ∨ mm.playerTwo = some pid))) = some fm →
      getMatch (rrFutureLoop pid t1 (t1.currentRound + 1)
        ((maxRound t1 - (t1.currentRound + 1)).toNat)).1 fm.id = some (nullSlot pid fm)) := by
  have hpid := getPlayer_id hp
  have hmmem := List.mem_of_find?_eq_some hfound
  have hmp := List.find?_some hfound
  have hmround : m.round = t.currentRound := (of_decide_eq_true hmp).1
  have hinj := List.inj_on_of_nodup_map hnids
  have hnids1 : (t1.matchList.map Match.id).Nodup := by
    rw [hml, map_updateFirst_eq (fun x => hid x)]
    exact hnids
  have hmax : maxRound t1 = maxRound t := by
    apply maxRound_eq_of_map_round
    rw [hml]
    exact map_updateFirst_eq (fun x => hro x)
  have hres1 : ∀ j : Int, t1.currentRound + 1 ≤ j →
      j < t1.currentRound + 1 + (((maxRound t1 - (t1.currentRound + 1)).toNat : Int)) →
      ∃ fm ∈ t1.matchList, fm.round = j ∧ (fm.playerOne = some pid ∨ fm.playerTwo = some pid) := by
    intro j hj1 hj2
    obtain ⟨fm, hfmm, hfmr, hfms⟩ := hres j (by omega) (by omega)
    have hneq : fm.id ≠ m.id := by
      intro hcon
      have heq : fm = m := hinj hfmm hmmem hcon
      rw [heq] at hfmr
      omega
    refine ⟨fm, ?_, hfmr, hfms⟩
    rw [hml]
    exact mem_updateFirst_of_pred_false hfmm (by simp [hneq])
  obtain ⟨hS, hU, hN⟩ := rrFutureLoop_spec pid ((maxRound t1 - (t1.currentRound + 1)).toNat)
    t1 (t1.currentRound + 1) hnids1 hres1
  refine ⟨?_, rrFutureLoop_players pid _ t1 _, ?_, ?_, ?_⟩
  · unfold rrRemovePlayer
    simp only [hp]
    rw [if_neg (by simp [hact]), if_neg (by simp [hst]), if_neg (by simp [hst]),
      if_neg (by simp [hst]), hpid]
    simp only [hfound, if_pos hmact]
    rw [hbranch]
    dsimp only
    cases hloop : rrFutureLoop pid t1 (t1.currentRound + 1)
        ((maxRound t1 - (t1.currentRound + 1)).toNat) with
    | mk t2 e2 =>
      rw [hloop] at hS
      cases e2 with
      | none => rfl
      | some e => exact absurd hS (by simp)
  · refine hU m.id (fun mm hmm hmx => ?_)
    rw [hml] at hmm
    rcases mem_updateFirst hmm with hmem | ⟨y, hy, _, rfl⟩
    · have heq : mm = m := hinj hmem hmmem hmx
      rw [heq]
      omega
    · have hyid : y.id = m.id := by rw [← hid y]; exact hmx
      have heq : y = m := hinj hy hmmem hyid
      rw [hro, heq]
      omega
  · intro x hxne hx
    have hbound : ∀ mm ∈ t1.matchList, mm.id = x →
        mm.round < t1.currentRound + 1 ∨
          t1.currentRound + 1 + (((maxRound t1 - (t1.currentRound + 1)).toNat : Int))
            ≤ mm.round := by
      intro mm hmm hmx
      rw [hml] at hmm
      rcases mem_updateFirst hmm with hmem | ⟨y, hy, _, rfl⟩
      · rcases hx mm hmem hmx with h | h <;> omega
      · rw [hro]
        rcases hx y hy (by rw [← hmx, hid]) with h | h <;> omega
    rw [hU x hbound]
    show t1.matchList.find? (fun mm => decide (mm.id = x))
      = t.matchList.find? (fun mm => decide (mm.id = x))
    rw [hml]
    exact find?_updateFirst_other (fun y hy hpy => by
      have hyid : y.id = m.id := by simpa using hpy
      constructor
      · simp only [decide_eq_false_iff_not, hyid]
        exact fun hc => hxne hc.symm
      · simp only [decide_eq_false_iff_not, hid, hyid]
        exact fun hc => hxne hc.symm)
  · intro j hj1 hj2 fm hfind'
    have hfind1 : t1.matchList.find? (fun mm => decide (mm.round = j ∧
        (mm.playerOne = some pid ∨ mm.playerTwo = some pid))) = some fm := by
      rw [hml]
      rw [find?_updateFirst_other (fun y hy hpy => ?_)]
      · exact hfind'
      · have hyid : y.id = m.id := by simpa using hpy
        have heq : y = m := hinj hy hmmem hyid
        subst heq
        constructor
        · simp only [decide_eq_false_iff_not]
          rintro ⟨hr, -⟩
          omega
        · simp only [decide_eq_false_iff_not, hro]
          rintro ⟨hr, -⟩
          omega
    exact hN j (by omega) (by omega) fm hfind1

/-- C6 (amended): for a valid, active player id, (a) under `registration`
the player is simply removed from the players collection; (b) under
`active` swiss, the player's active current-round match is forfeited
whichever slot the player holds — the opponent is awarded `⌈bestOf/2⌉`
game-wins with zero draws via the standard result write — and the player
is then deactivated; (c) under `active` round-robin (single or double
alike), the same forfeit and deactivation happen and, additionally, the
player's slot is emptied in the first scheduled match of every round
strictly between the current round and the last scheduled round, while
every other match of the current round and of the final scheduled round
(`round ≥ maxRound`) is left untouched. -/
theorem c6_removePlayer (t : Tournament) (pid : String) (player : Player)
    (hp : getPlayer t pid = some player) (hact : player.active = true) :
    (t.status = Status.registration →
      swissRemovePlayer t pid
        = ({ t with players := removeFirst (fun p => decide (p.id = pid)) t.players }, none) ∧
      rrRemovePlayer t pid
        = ({ t with players := removeFirst (fun p => decide (p.id = pid)) t.players }, none)) ∧
    (∀ (m : Match) (p2 : Player), t.status = Status.active →
      (t.matchList.map Match.id).Nodup →
      t.matchList.find? (fun m' => decide (m'.round = t.currentRound ∧
        (m'.playerOne = some pid ∨ m'.playerTwo = some pid))) = some m →
      m.active = true → m.playerOne = some pid → m.playerTwo = some p2.id →
      getPlayer t p2.id = some p2 →
      swissRemovePlayer t pid =
        (setPlayer
          (setMatch
            (setPlayer
              (setPlayer t pid
                (stdUpdateOne t.pointsForWin t.pointsForDraw m 0 (ceilHalf t.bestOf) 0))
              p2.id (stdUpdateTwo t.pointsForWin t.pointsForDraw m 0 (ceilHalf t.bestOf) 0))
            m.id (stdMatchWrite 0 (ceilHalf t.bestOf) 0))
          pid (fun q => { q with active := false }), none)) ∧
    (∀ (m : Match) (p1 : Player), t.status = Status.active →
      (t.matchList.map Match.id).Nodup →
      t.matchList.find? (fun m' => decide (m'.round = t.currentRound ∧
        (m'.playerOne = some pid ∨ m'.playerTwo = some pid))) = some m →
      m.active = true → m.playerOne = some p1.id → m.playerTwo = some pid →
      p1.id ≠ pid → getPlayer t p1.id = some p1 →
      swissRemovePlayer t pid =
        (setPlayer
          (setMatch
            (setPlayer
              (setPlayer t p1.id
                (stdUpdateOne t.pointsForWin t.pointsForDraw m (ceilHalf t.bestOf) 0 0))
              pid (stdUpdateTwo t.pointsForWin t.pointsForDraw m (ceilHalf t.bestOf) 0 0))
            m.id (stdMatchWrite (ceilHalf t.bestOf) 0 0))
          pid (fun q => { q with active := false }), none)) ∧
    (∀ (m : Match) (p2 : Player), t.status = Status.active →
      (t.matchList.map Match.id).Nodup →
      t.matchList.find? (fun m' => decide (m'.round = t.currentRound ∧
        (m'.playerOne = some pid ∨ m'.playerTwo = some pid))) = some m →
      m.active = true → m.playerOne = some pid → m.playerTwo = some p2.id →
      p2.id ≠ pid → getPlayer t p2.id = some p2 →
      (∀ j : Int, t.currentRound + 1 ≤ j → j < maxRound t →
        ∃ fm ∈ t.matchList, fm.round = j ∧
          (fm.playerOne = some pid ∨ fm.playerTwo = some pid)) →
      (rrRemovePlayer t pid).2 = none ∧
      getMatch (rrRemovePlayer t pid).1 m.id
        = some (stdMatchWrite 0 (ceilHalf t.bestOf) 0 m) ∧
      getPlayer (rrRemovePlayer t pid).1 pid
        = some { stdUpdateOne t.pointsForWin t.pointsForDraw m 0 (ceilHalf t.bestOf) 0 player
            with active := false } ∧
      getPlayer (rrRemovePlayer t pid).1 p2.id
        = some (stdUpdateTwo t.pointsForWin t.pointsForDraw m 0 (ceilHalf t.bestOf) 0 p2) ∧
      (∀ j : Int, t.currentRound + 1 ≤ j → j < maxRound t → ∀ fm : Match,
        t.matchList.find? (fun mm => decide (mm.round = j ∧
          (mm.playerOne = some pid ∨ mm.playerTwo = some pid))) = some fm →
        getMatch (rrRemovePlayer t pid).1 fm.id = some (nullSlot pid fm)) ∧
      (∀ x : String, x ≠ m.id →
        (∀ mm ∈ t.matchList, mm.id = x → mm.round ≤ t.currentRound ∨ maxRound t ≤ mm.round) →
        getMatch (rrRemovePlayer t pid).1 x = getMatch t x)) ∧
    (∀ (m : Match) (p1 : Player), t.status = Status.active →
      (t.matchList.map Match.id).Nodup →
      t.matchList.find? (fun m' => decide (m'.round = t.currentRound ∧
        (m'.playerOne = some pid ∨ m'.playerTwo = some pid))) = some m →
      m.active = true → m.playerOne = some p1.id → m.playerTwo = some pid →
      p1.id ≠ pid → getPlayer t p1.id = some p1 →
      (∀ j : Int, t.currentRound + 1 ≤ j → j < maxRound t →
        ∃ fm ∈ t.matchList, fm.round = j ∧
          (fm.playerOne = some pid ∨ fm.playerTwo = some pid)) →
      (rrRemovePlayer t pid).2 = none ∧
      getMatch (rrRemovePlayer t pid).1 m.id
        = some (stdMatchWrite (ceilHalf t.bestOf) 0 0 m) ∧
      getPlayer (rrRemovePlayer t pid).1 pid
        = some { stdUpdateTwo t.pointsForWin t.pointsForDraw m (ceilHalf t.bestOf) 0 0 player
            with active := false } ∧
      getPlayer (rrRemovePlayer t pid).1 p1.id
        = some (stdUpdateOne t.pointsForWin t.pointsForDraw m (ceilHalf t.bestOf) 0 0 p1) ∧
      (∀ j : Int, t.currentRound + 1 ≤ j → j < maxRound t → ∀ fm : Match,
        t.matchList.find? (fun mm => decide (mm.round = j ∧
          (mm.playerOne = some pid ∨ mm.playerTwo = some pid))) = some fm →
        getMatch (rrRemovePlayer t pid).1 fm.id = some (nullSlot pid fm)) ∧
      (∀ x : String, x ≠ m.id →
        (∀ mm ∈ t.matchList, mm.id = x → mm.round ≤ t.currentRound ∨ maxRound t ≤ mm.round) →
        getMatch (rrRemovePlayer t pid).1 x = getMatch t x)) := by
  have hpid := getPlayer_id hp
  refine ⟨?_, ?_, ?_, ?_, ?_⟩
  · intro hst
    constructor
    · unfold swissRemovePlayer
      simp only [hp]
      rw [if_neg (by simp [hact]), if_neg (by simp [hst]), if_pos hst, hpid]
    · unfold rrRemovePlayer
      simp only [hp]
      rw [if_neg (by simp [hact]), if_neg (by simp [hst]), if_pos hst, hpid]
  · intro m p2 hst hnids hfound hmact hs1 hs2 hp2
    have hm' : getMatch t m.id = some m := by
      show t.matchList.find? (fun mm => decide (mm.id = m.id)) = some m
      exact find?_eq_of_mem_nodup hnids (List.mem_of_find?_eq_some hfound)
    have hstd := @standardResult_success_eq t m.id 0 (ceilHalf t.bestOf) 0 m pid p2.id player p2
      hm' hmact hs1 hs2 hp hp2
    unfold swissRemovePlayer
    simp only [hp]
    rw [if_neg (by simp [hact]), if_neg (by simp [hst]), if_neg (by simp [hst]),
      if_neg (by simp [hst]), hpid]
    simp only [hfound, if_pos hmact, if_pos hs1, hstd]
  · intro m p1 hst hnids hfound hmact hs1 hs2 hne1 hp1
    have hm' : getMatch t m.id = some m := by
      show t.matchList.find? (fun mm => decide (mm.id = m.id)) = some m
      exact find?_eq_of_mem_nodup hnids (List.mem_of_find?_eq_some hfound)
    have hstd := @standardResult_success_eq t m.id (ceilHalf t.bestOf) 0 0 m p1.id pid p1 player
      hm' hmact hs1 hs2 hp1 hp
    unfold swissRemovePlayer
    simp only [hp]
    rw [if_neg (by simp [hact]), if_neg (by simp [hst]), if_neg (by simp [hst]),
      if_neg (by simp [hst]), hpid]
    simp only [hfound, if_pos hmact]
    rw [if_neg (by rw [hs1]; simp [hne1]), hstd]
  · intro m p2 hst hnids hfound hmact hs1 hs2 hne2 hp2 hres
    have hm' : getMatch t m.id = some m := by
      show t.matchList.find? (fun mm => decide (mm.id = m.id)) = some m
      exact find?_eq_of_mem_nodup hnids (List.mem_of_find?_eq_some hfound)
    have hstd := @standardResult_success_eq t m.id 0 (ceilHalf t.bestOf) 0 m pid p2.id player p2
      hm' hmact hs1 hs2 hp hp2
    obtain ⟨hMain, hPl, hM, hU, hN⟩ := c6rr_run t pid player
      (setMatch
        (setPlayer
          (setPlayer t pid (stdUpdateOne t.pointsForWin t.pointsForDraw m 0 (ceilHalf t.bestOf) 0))
          p2.id (stdUpdateTwo t.pointsForWin t.pointsForDraw m 0 (ceilHalf t.bestOf) 0))
        m.id (stdMatchWrite 0 (ceilHalf t.bestOf) 0))
      m (stdMatchWrite 0 (ceilHalf t.bestOf) 0)
      hp hact hst hfound hmact (by rw [if_pos hs1, hstd])
      (fun x => rfl) (fun x => rfl) rfl rfl hnids hres
    have hqY : getPlayer
        (setPlayer
          (setPlayer t pid (stdUpdateOne t.pointsForWin t.pointsForDraw m 0 (ceilHalf t.bestOf) 0))
          p2.id (stdUpdateTwo t.pointsForWin t.pointsForDraw m 0 (ceilHalf t.bestOf) 0)) pid
        = some (stdUpdateOne t.pointsForWin t.pointsForDraw m 0 (ceilHalf t.bestOf) 0 player) := by
      rw [getPlayer_setPlayer_other hne2 (fun x => by simp)]
      exact getPlayer_setPlayer_self hp (by simp)
    have hqY2 : getPlayer
        (setPlayer
          (setPlayer t pid (stdUpdateOne t.pointsForWin t.pointsForDraw m 0 (ceilHalf t.bestOf) 0))
          p2.id (stdUpdateTwo t.pointsForWin t.pointsForDraw m 0 (ceilHalf t.bestOf) 0)) p2.id
        = some (stdUpdateTwo t.pointsForWin t.pointsForDraw m 0 (ceilHalf t.bestOf) 0 p2) := by
      refine getPlayer_setPlayer_self ?_ (by simp)
      rw [getPlayer_setPlayer_other (fun hc => hne2 hc.symm) (fun x => by simp)]
      exact hp2
    have hmY : getMatch
        (setPlayer
          (setPlayer t pid (stdUpdateOne t.pointsForWin t.pointsForDraw m 0 (ceilHalf t.bestOf) 0))
          p2.id (stdUpdateTwo t.pointsForWin t.pointsForDraw m 0 (ceilHalf t.bestOf) 0)) m.id
        = some m := by
      rw [getMatch_setPlayer, getMatch_setPlayer]
      exact hm'
    refine ⟨by rw [hMain], ?_, ?_, ?_, ?_, ?_⟩
    · rw [hMain]
      dsimp only
      rw [getMatch_setPlayer, hM]
      exact getMatch_setMatch_self hmY rfl
    · rw [hMain]
      dsimp only
      refine getPlayer_setPlayer_self ?_ rfl
      rw [getPlayer_eq_of_players_eq hPl, getPlayer_setMatch]
      exact hqY
    · rw [hMain]
      dsimp only
      rw [getPlayer_setPlayer_other (f := fun q => { q with active := false })
          (fun hc => hne2 hc.symm) (fun x => rfl),
        getPlayer_eq_of_players_eq hPl, getPlayer_setMatch]
      exact hqY2
    · intro j hj1 hj2 fm hfind'
      rw [hMain]
      dsimp only
      rw [getMatch_setPlayer]
      exact hN j hj1 hj2 fm hfind'
    · intro x hxne hx
      rw [hMain]
      dsimp only
      rw [getMatch_setPlayer]
      exact hU x hxne hx
  · intro m p1 hst hnids hfound hmact hs1 hs2 hne1 hp1 hres
    have hm' : getMatch t m.id = some m := by
      show t.matchList.find? (fun mm => decide (mm.id = m.id)) = some m
      exact find?_eq_of_mem_nodup hnids (List.mem_of_find?_eq_some hfound)
    have hstd := @standardResult_success_eq t m.id (ceilHalf t.bestOf) 0 0 m p1.id pid p1 player
      hm' hmact hs1 hs2 hp1 hp
    obtain ⟨hMain, hPl, hM, hU, hN⟩ := c6rr_run t pid player
      (setMatch
        (setPlayer
          (setPlayer t p1.id
            (stdUpdateOne t.pointsForWin t.pointsForDraw m (ceilHalf t.bestOf) 0 0))
          pid (stdUpdateTwo t.pointsForWin t.pointsForDraw m (ceilHalf t.bestOf) 0 0))
        m.id (stdMatchWrite (ceilHalf t.bestOf) 0 0))
      m (stdMatchWrite (ceilHalf t.bestOf) 0 0)
      hp hact hst hfound hmact (by rw [if_neg (by rw [hs1]; simp [hne1]), hstd])
      (fun x => rfl) (fun x => rfl) rfl rfl hnids hres
    have hqY : getPlayer
        (setPlayer
          (setPlayer t p1.id
            (stdUpdateOne t.pointsForWin t.pointsForDraw m (ceilHalf t.bestOf) 0 0))
          pid (stdUpdateTwo t.pointsForWin t.pointsForDraw m (ceilHalf t.bestOf) 0 0)) pid
        = some (stdUpdateTwo t.pointsForWin t.pointsForDraw m (ceilHalf t.bestOf) 0 0 player) := by
      refine getPlayer_setPlayer_self ?_ (by simp)
      rw [getPlayer_setPlayer_other hne1 (fun x => by simp)]
      exact hp
    have hqY2 : getPlayer
        (setPlayer
          (setPlayer t p1.id
            (stdUpdateOne t.pointsForWin t.pointsForDraw m (ceilHalf t.bestOf) 0 0))
          pid (stdUpdateTwo t.pointsForWin t.pointsForDraw m (ceilHalf t.bestOf) 0 0)) p1.id
        = some (stdUpdateOne t.pointsForWin t.pointsForDraw m (ceilHalf t.bestOf) 0 0 p1) := by
      rw [getPlayer_setPlayer_other (fun hc => hne1 hc.symm) (fun x => by simp)]
      exact getPlayer_setPlayer_self hp1 (by simp)
    have hmY : getMatch
        (setPlayer
          (setPlayer t p1.id
            (stdUpdateOne t.pointsForWin t.pointsForDraw m (ceilHalf t.bestOf) 0 0))
          pid (stdUpdateTwo t.pointsForWin t.pointsForDraw m (ceilHalf t.bestOf) 0 0)) m.id
        = some m := by
      rw [getMatch_setPlayer, getMatch_setPlayer]
      exact hm'
    refine ⟨by rw [hMain], ?_, ?_, ?_, ?_, ?_⟩
    · rw [hMain]
      dsimp only
      rw [getMatch_setPlayer, hM]
      exact getMatch_setMatch_self hmY rfl
    · rw [hMain]
      dsimp only
      refine getPlayer_setPlayer_self ?_ rfl
      rw [getPlayer_eq_of_players_eq hPl, getPlayer_setMatch]
      exact hqY
    · rw [hMain]
      dsimp only
      rw [getPlayer_setPlayer_other (f := fun q => { q with active := false })
          (fun hc => hne1 hc.symm) (fun x => rfl),
        getPlayer_eq_of_players_eq hPl, getPlayer_setMatch]
      exact hqY2
    · intro j hj1 hj2 fm hfind'
      rw [hMain]
      dsimp only
      rw [getMatch_setPlayer]
      exact hN j hj1 hj2 fm hfind'
    · intro x hxne hx
      rw [hMain]
      dsimp only
      rw [getMatch_setPlayer]
      exact hU x hxne hx

/-- C6 witness: removing player `a` from the active double round-robin
fixture `c6t` (current round 1, active match `m1` against `b`, scheduled
matches in rounds 2 and 3, last scheduled round 3) succeeds, writes the
0-⌈bestOf/2⌉ forfeit into `m1`, deactivates `a`, awards `b` the forfeit
entry, empties `a`'s slot in the round-2 match and leaves the round-3
match untouched. -/
theorem c6_witness :
    (rrRemovePlayer c6t "a").2 = none ∧
    getMatch (rrRemovePlayer c6t "a").1 "m1"
      = some (stdMatchWrite 0 (ceilHalf c6t.bestOf) 0 (mkM "m1" (some "a") (some "b") true)) ∧
    getPlayer (rrRemovePlayer c6t "a").1 "a"
      = some { stdUpdateOne c6t.pointsForWin c6t.pointsForDraw
          (mkM "m1" (some "a") (some "b") true) 0 (ceilHalf c6t.bestOf) 0 (mkP "a" true)
          with active := false } ∧
    getPlayer (rrRemovePlayer c6t "a").1 "b"
      = some (stdUpdateTwo c6t.pointsForWin c6t.pointsForDraw
          (mkM "m1" (some "a") (some "b") true) 0 (ceilHalf c6t.bestOf) 0 (mkP "b" true)) ∧
    getMatch (rrRemovePlayer c6t "a").1 "m2"
      = some (nullSlot "a" { mkM "m2" (some "a") (some "c") false with round := 2 }) ∧
    getMatch (rrRemovePlayer c6t "a").1 "m3" = getMatch c6t "m3" := by
  have h := (c6_removePlayer c6t "a" (mkP "a" true) (by decide) (by decide)).2.2.2.1
    (mkM "m1" (some "a") (some "b") true) (mkP "b" true)
    rfl (by decide) (by decide) (by decide) rfl rfl (by decide) (by decide)
    (by
      intro j hj1 hj2
      have hmax : maxRound c6t = 3 := by decide
      have hcr : c6t.currentRound = 1 := by decide
      have hj : j = 2 := by omega
      subst hj
      exact ⟨{ mkM "m2" (some "a") (some "c") false with round := 2 }, by decide, by decide,
        Or.inl (by decide)⟩)
  obtain ⟨h1, h2, h3, h4, h5, h6⟩ := h
  refine ⟨h1, h2, h3, h4, ?_, ?_⟩
  · exact h5 2 (by decide) (by decide)
      { mkM "m2" (some "a") (some "c") false with round := 2 } (by decide)
  · exact h6 "m3" (by decide) (by decide)

/-- C6 counterexample: on the double round-robin fixture `c6t` the removal
of player `a` succeeds and empties `a`'s slot in the round-2 match, but the
final scheduled round (round 3 = maxRound) keeps `a` in its match — the
loop bound `i < maxRound` excludes the last round, refuting the clause
that every future round including the final one is emptied. -/
theorem c6_counterexample :
    c6t.double = true ∧
    maxRound c6t = 3 ∧
    (rrRemovePlayer c6t "a").2 = none ∧
    (getMatch (rrRemovePlayer c6t "a").1 "m2").map Match.playerOne = some none ∧
    (getMatch (rrRemovePlayer c6t "a").1 "m3").map Match.playerOne = some (some "a") := by
  refine ⟨rfl, by decide, by decide, by decide, by decide⟩

end C6

section C5

theorem mem_updateFirst_find? {α : Type} {p : α → Bool} {f : α → α} {l : List α} {a : α}
    (h : a ∈ updateFirst p f l) :
    a ∈ l ∨ ∃ x, l.find? p = some x ∧ a = f x := by
  induction l with
  | nil => simp [updateFirst] at h
  | cons y ys ih =>
    by_cases hp : p y
    · simp only [updateFirst, if_pos hp] at h
      rcases List.mem_cons.mp h with h' | h'
      · exact Or.inr ⟨y, List.find?_cons_of_pos _ hp, h'⟩
      · exact Or.inl (List.mem_cons_of_mem _ h')
    · simp only [updateFirst, if_neg hp] at h
      rcases List.mem_cons.mp h with h' | h'
      · exact Or.inl (by simp [h'])
      · rcases ih h' with h'' | ⟨x, hx, hax⟩
        · exact Or.inl (by simp [h''])
        · exact Or.inr ⟨x, by
            rw [List.find?_cons_of_neg _ (by simpa using hp)]
            exact hx, hax⟩

theorem mem_of_mem_removeFirst {α : Type} {p : α → Bool} {l : List α} {a : α}
    (h : a ∈ removeFirst p l) : a ∈ l := by
  induction l with
  | nil => simpa [removeFirst] using h
  | cons y ys ih =>
    by_cases hp : p y
    · simp only [removeFirst, if_pos hp] at h
      exact List.mem_cons_of_mem _ h
    · simp only [removeFirst, if_neg hp] at h
      rcases List.mem_cons.mp h with h' | h'
      · simp [h']
      · exact List.mem_cons_of_mem _ (ih h')

theorem PlayerInv_write_active {p : Player} (b : Bool) (h : PlayerInv p) :
    PlayerInv { p with active := b } := h

theorem PlayerInv_applyResultEntry {p : Player} (e : PlayerResult) (h : PlayerInv p) :
    PlayerInv (applyResultEntry p e) := by
  obtain ⟨h1, h2, h3⟩ := h
  refine ⟨?_, ?_, ?_⟩
  · show p.matchPoints + e.matchPoints
      = ((p.results ++ [e]).map PlayerResult.matchPoints).sum
    rw [List.map_append, List.sum_append, h1]
    simp
  · show p.gamePoints + e.gamePoints
      = ((p.results ++ [e]).map PlayerResult.gamePoints).sum
    rw [List.map_append, List.sum_append, h2]
    simp
  · show p.matchCount + 1 = ((p.results ++ [e]).length : Int)
    rw [h3]
    simp

theorem PlayerInv_applyByeEntry {p : Player} (pfw : Rat) (bo : Int) (mid : String) (r : Int)
    (h : PlayerInv p) : PlayerInv (applyByeEntry pfw bo mid r p) := by
  obtain ⟨h1, h2, h3⟩ := h
  refine ⟨?_, ?_, ?_⟩
  · show p.matchPoints + pfw
      = ((p.results ++ [byeEntry pfw bo mid r]).map PlayerResult.matchPoints).sum
    rw [List.map_append, List.sum_append, h1]
    simp [byeEntry]
  · show p.gamePoints + (ceilHalf bo : Rat) * pfw
      = ((p.results ++ [byeEntry pfw bo mid r]).map PlayerResult.gamePoints).sum
    rw [List.map_append, List.sum_append, h2]
    simp [byeEntry]
  · show p.matchCount + 1 = ((p.results ++ [byeEntry pfw bo mid r]).length : Int)
    rw [h3]
    simp

theorem PlayerInv_lossCatchUp {p : Player} (bo : Int) (mid : String) (r : Int)
    (h : PlayerInv p) :
    PlayerInv { p with
      results := p.results ++ [lossCatchUpEntry bo mid r],
      matchCount := p.matchCount + 1,
      gameCount := p.gameCount + ceilHalf bo } := by
  obtain ⟨h1, h2, h3⟩ := h
  refine ⟨?_, ?_, ?_⟩
  · show p.matchPoints
      = ((p.results ++ [lossCatchUpEntry bo mid r]).map PlayerResult.matchPoints).sum
    rw [List.map_append, List.sum_append, h1]
    simp [lossCatchUpEntry]
  · show p.gamePoints
      = ((p.results ++ [lossCatchUpEntry bo mid r]).map PlayerResult.gamePoints).sum
    rw [List.map_append, List.sum_append, h2]
    simp [lossCatchUpEntry]
  · show p.matchCount + 1 = ((p.results ++ [lossCatchUpEntry bo mid r]).length : Int)
    rw [h3]
    simp

theorem PlayerInv_eraseRemoveEntry {p : Player} {e : PlayerResult}
    (hfind : p.results.find? (fun r => decide (r.matchId = e.matchId)) = some e)
    (h : PlayerInv p) : PlayerInv (eraseRemoveEntry p e) := by
  obtain ⟨h1, h2, h3⟩ := h
  refine ⟨?_, ?_, ?_⟩
  · show p.matchPoints - e.matchPoints
      = ((removeFirst (fun r => decide (r.matchId = e.matchId)) p.results).map
          PlayerResult.matchPoints).sum
    rw [h1, sum_map_removeFirst PlayerResult.matchPoints hfind]
    ring
  · show p.gamePoints - e.gamePoints
      = ((removeFirst (fun r => decide (r.matchId = e.matchId)) p.results).map
          PlayerResult.gamePoints).sum
    rw [h2, sum_map_removeFirst PlayerResult.gamePoints hfind]
    ring
  · show p.matchCount - 1
      = ((removeFirst (fun r => decide (r.matchId = e.matchId)) p.results).length : Int)
    have hlen := length_removeFirst hfind
    rw [h3]
    omega

theorem PlayerInv_defaultPlayer (pid al : String) (s ib : Int) :
    PlayerInv (defaultPlayer pid al s ib) := by
  refine ⟨?_, ?_, ?_⟩ <;> simp [defaultPlayer]

theorem Inv_setMatch {t : Tournament} (mid : String) (f : Match → Match) (h : Inv t) :
    Inv (setMatch t mid f) := h

theorem Inv_setPlayer_all {t : Tournament} (pid : String) {f : Player → Player}
    (hf : ∀ q, PlayerInv q → PlayerInv (f q)) (h : Inv t) : Inv (setPlayer t pid f) := by
  intro q hq
  rcases mem_updateFirst (l := t.players) hq with hmem | ⟨x, hx, _, rfl⟩
  · exact h q hmem
  · exact hf x (h x hx)

theorem Inv_setPlayer_first {t : Tournament} {pid : String} {f : Player → Player} {p : Player}
    (hp : getPlayer t pid = some p) (hfp : PlayerInv (f p)) (h : Inv t) :
    Inv (setPlayer t pid f) := by
  intro q hq
  rcases mem_updateFirst_find? (l := t.players) hq with hmem | ⟨x, hx, rfl⟩
  · exact h q hmem
  · have hxp : x = p := by
      unfold getPlayer at hp
      rw [hp] at hx
      exact (Option.some.inj hx).symm
    rw [hxp]
    exact hfp

theorem Inv_setPlayer_active {t : Tournament} (pid : String) (b : Bool) (h : Inv t) :
    Inv (setPlayer t pid (fun q => { q with active := b })) :=
  Inv_setPlayer_all pid (fun q hq => hq) h

theorem Inv_setPlayer_entry {t : Tournament} (pid : String) (e : PlayerResult) (h : Inv t) :
    Inv (setPlayer t pid (fun q => applyResultEntry q e)) :=
  Inv_setPlayer_all pid (fun q hq => PlayerInv_applyResultEntry e hq) h

/-- A successful `Tournament.eraseResult` preserves the scoreboard
invariant (its error paths can leave a decremented `matchCount`). -/
theorem eraseResultCore_inv {t : Tournament} {m : Match} (h : Inv t)
    (hs : (eraseResultCore t m).2 = none) : Inv (eraseResultCore t m).1 := by
  unfold eraseResultCore at hs ⊢
  by_cases hact : m.active = true
  · rw [if_pos hact] at hs
    exact absurd hs (by simp)
  · rw [if_neg hact] at hs ⊢
    cases h1 : m.playerOne with
    | none =>
      simp only [h1] at hs
      exact absurd hs (by simp)
    | some p1id =>
      cases h2 : m.playerTwo with
      | none =>
        simp only [h1, h2] at hs
        exact absurd hs (by simp)
      | some p2id =>
        simp only [h1, h2] at hs ⊢
        cases hp1 : getPlayer (setMatch t m.id eraseMatchReset) p1id with
        | none =>
          simp only [hp1] at hs
          exact absurd hs (by simp)
        | some p1 =>
          simp only [hp1] at hs ⊢
          cases hf1 : p1.results.find? (fun r => decide (r.matchId = m.id)) with
          | none =>
            simp only [hf1] at hs
            exact absurd hs (by simp)
          | some e1 =>
            simp only [hf1] at hs ⊢
            have he1 : e1.matchId = m.id := by
              have := List.find?_some hf1
              simpa using this
            have hinv1 : Inv (setPlayer (setMatch t m.id eraseMatchReset) p1id
                (fun q => eraseRemoveEntry q e1)) := by
              refine Inv_setPlayer_first hp1 ?_ (Inv_setMatch _ _ h)
              refine PlayerInv_eraseRemoveEntry ?_
                (Inv_setMatch _ _ h p1 (List.mem_of_find?_eq_some hp1))
              rw [he1]
              exact hf1
            cases hp2 : getPlayer (setPlayer (setMatch t m.id eraseMatchReset) p1id
                (fun q => eraseRemoveEntry q e1)) p2id with
            | none =>
              simp only [hp2] at hs
              exact absurd hs (by simp)
            | some p2 =>
              simp only [hp2] at hs ⊢
              cases hf2 : p2.results.find? (fun r => decide (r.matchId = m.id)) with
              | none =>
                simp only [hf2] at hs
                exact absurd hs (by simp)
              | some e2 =>
                simp only [hf2] at hs ⊢
                have he2 : e2.matchId = m.id := by
                  have := List.find?_some hf2
                  simpa using this
                refine Inv_setPlayer_first hp2 ?_ hinv1
                refine PlayerInv_eraseRemoveEntry ?_
                  (hinv1 p2 (List.mem_of_find?_eq_some hp2))
                rw [he2]
                exact hf2

/-- `standardResult`'s apply phase preserves the invariant on every path. -/
theorem standardResultApply_inv {t : Tournament} {m : Match} {w1 w2 d : Int} (h : Inv t) :
    Inv (standardResultApply t m w1 w2 d).1 := by
  unfold standardResultApply
  cases hp1 : getPlayerOpt t m.playerOne with
  | none => exact h
  | some p1 =>
    cases hp2 : getPlayerOpt t m.playerTwo with
    | none => exact Inv_setPlayer_active _ _ h
    | some p2 =>
      show Inv (setMatch _ m.id _)
      refine Inv_setMatch _ _ ?_
      refine Inv_setPlayer_all _ (fun q hq => PlayerInv_applyResultEntry _ hq) ?_
      exact Inv_setPlayer_all _ (fun q hq => PlayerInv_applyResultEntry _ hq) h

/-- A successful `standardResult` call preserves the invariant. -/
theorem standardResult_inv {t : Tournament} {mid : String} {w1 w2 d : Int} (h : Inv t)
    (hs : (standardResult t mid w1 w2 d).2 = none) :
    Inv (standardResult t mid w1 w2 d).1 := by
  unfold standardResult at hs ⊢
  cases hm : getMatch t mid with
  | none =>
    simp only [hm] at hs
    exact absurd hs (by simp)
  | some m =>
    simp only [hm] at hs ⊢
    by_cases hact : m.active = true
    · rw [if_pos hact]
      exact standardResultApply_inv h
    · rw [if_neg hact] at hs ⊢
      cases hec : eraseResultCore t m with
      | mk t' e' =>
        simp only [hec] at hs ⊢
        cases e' with
        | some e => exact absurd hs (by simp)
        | none =>
          have ht' : Inv t' := by
            have hh := eraseResultCore_inv h (by rw [hec])
            rw [hec] at hh
            exact hh
          exact standardResultApply_inv ht'

/-- The elimination pull-back preserves the invariant on every path. -/
theorem elimPullback_inv {t : Tournament} {m : Match} (h : Inv t) :
    Inv (elimPullback t m).1 := by
  unfold elimPullback
  dsimp only
  repeat' split
  all_goals
    repeat first
      | exact h
      | apply Inv_setMatch
      | apply Inv_setPlayer_active

/-- The elimination routing tail preserves the invariant on every path. -/
theorem elimRoute_inv {t : Tournament} {m : Match} {wi li : String} (h : Inv t) :
    Inv (elimRoute t m wi li).1 := by
  unfold elimRoute
  dsimp only
  repeat' split
  all_goals try dsimp only
  all_goals repeat' split
  all_goals try dsimp only
  all_goals repeat' split
  all_goals
    repeat first
      | exact h
      | apply Inv_setMatch
      | apply Inv_setPlayer_active

/-- A successful `eliminationResult` call preserves the invariant. -/
theorem eliminationResult_inv {t : Tournament} {mid : String} {w1 w2 : Int} (h : Inv t)
    (hs : (eliminationResult t mid w1 w2).2 = none) :
    Inv (eliminationResult t mid w1 w2).1 := by
  unfold eliminationResult at hs ⊢
  by_cases hw : w1 = w2
  · rw [if_pos hw] at hs
    exact absurd hs (by simp)
  · rw [if_neg hw] at hs ⊢
    cases hm : getMatch t mid with
    | none =>
      simp only [hm] at hs
      exact absurd hs (by simp)
    | some m =>
      simp only [hm] at hs ⊢
      by_cases hact : m.active = true
      · rw [if_pos hact] at hs ⊢
        dsimp only at hs ⊢
        repeat' split
        all_goals try dsimp only
        all_goals repeat' split
        all_goals try dsimp only
        all_goals repeat' split
        all_goals
          repeat first
            | exact h
            | apply elimRoute_inv
            | apply Inv_setPlayer_entry
            | apply Inv_setPlayer_active
            | apply Inv_setMatch
      · rw [if_neg hact] at hs ⊢
        cases hpb : elimPullback t m with
        | mk t' e' =>
          simp only [hpb] at hs ⊢
          cases e' with
          | some e => exact absurd hs (by simp)
          | none =>
            have ht' : Inv t' := by
              have hh := elimPullback_inv (m := m) h
              rw [hpb] at hh
              exact hh
            cases hgm : getMatch t' mid with
            | none =>
              simp only [hgm] at hs
              exact absurd hs (by simp)
            | some m' =>
              simp only [hgm] at hs ⊢
              cases hec : eraseResultCore t' m' with
              | mk t1 e1 =>
                simp only [hec] at hs ⊢
                cases e1 with
                | some e => exact absurd hs (by simp)
                | none =>
                  have ht1 : Inv t1 := by
                    have hh := eraseResultCore_inv ht' (by rw [hec])
                    rw [hec] at hh
                    exact hh
                  dsimp only at hs ⊢
                  repeat' split
                  all_goals try dsimp only
                  all_goals repeat' split
                  all_goals try dsimp only
                  all_goals repeat' split
                  all_goals
                    repeat first
                      | exact ht1
                      | apply elimRoute_inv
                      | apply Inv_setPlayer_entry
                      | apply Inv_setPlayer_active
                      | apply Inv_setMatch

/-- A successful outer `eraseResult` (the Swiss / round-robin subclass
method) preserves the invariant. -/
theorem eraseResultOuter_inv {t : Tournament} {mid : String} (h : Inv t)
    (hs : (eraseResultOuter t mid).2 = none) : Inv (eraseResultOuter t mid).1 := by
  unfold eraseResultOuter at hs ⊢
  cases hm : getMatch t mid with
  | none =>
    simp only [hm] at hs
    exact absurd hs (by simp)
  | some m =>
    simp only [hm] at hs ⊢
    by_cases hact : m.active = true
    · rw [if_pos hact] at hs
      exact absurd hs (by simp)
    · rw [if_neg hact] at hs ⊢
      by_cases hpo : t.status = Status.playoffs
      · rw [if_pos hpo] at hs ⊢
        cases hpb : elimPullback t m with
        | mk t' e' =>
          simp only [hpb] at hs ⊢
          cases e' with
          | some e => exact absurd hs (by simp)
          | none =>
            have ht' : Inv t' := by
              have hh := elimPullback_inv (m := m) h
              rw [hpb] at hh
              exact hh
            cases hgm : getMatch t' mid with
            | none =>
              simp only [hgm] at hs
              exact absurd hs (by simp)
            | some m' =>
              simp only [hgm] at hs ⊢
              exact eraseResultCore_inv ht' hs
      · rw [if_neg hpo] at hs ⊢
        exact eraseResultCore_inv h hs

/-- `Tournament.newPlayer` preserves the invariant on every path. -/
theorem newPlayer_inv {t : Tournament} (al pid : String) (s ib : Int) (h : Inv t) :
    Inv (newPlayer t al pid s ib).1 := by
  unfold newPlayer
  repeat' split
  any_goals exact h
  intro q hq
  have hq' : q ∈ t.players ++ [defaultPlayer pid al s ib] := hq
  rcases List.mem_append.mp hq' with hq'' | hq''
  · exact h q hq''
  · rw [List.mem_singleton.mp hq'']
    exact PlayerInv_defaultPlayer pid al s ib

/-- The catch-up loop of `Swiss.addPlayer` preserves the invariant. -/
theorem swissCatchUpGo_inv (pid : String) (bm : Bool) (fi : Nat → String) :
    ∀ (fuel : Nat) (t : Tournament) (i : Nat), Inv t →
      Inv (swissCatchUpGo pid bm fi t i fuel) := by
  intro fuel
  induction fuel with
  | zero => intro t i h; exact h
  | succ n ih =>
    intro t i h
    unfold swissCatchUpGo
    apply ih
    split
    · exact Inv_setPlayer_all _ (fun q hq => PlayerInv_applyByeEntry _ _ _ _ hq) h
    · exact Inv_setPlayer_all _ (fun q hq => PlayerInv_lossCatchUp _ _ _ hq) h

/-- `Swiss.addPlayer` preserves the invariant on every path. -/
theorem swissAddPlayer_inv {t : Tournament} (al pid : String) (s ib : Int) (mb : Bool)
    (fi : Nat → String) (h : Inv t) : Inv (swissAddPlayer t al pid s ib mb fi).1 := by
  unfold swissAddPlayer
  cases hnp : newPlayer t al pid s ib with
  | mk t' e' =>
    have ht' : Inv t' := by
      have hh := newPlayer_inv (t := t) al pid s ib h
      rw [hnp] at hh
      exact hh
    cases e' with
    | some e => exact ht'
    | none =>
      dsimp only
      split
      · exact swissCatchUpGo_inv _ _ _ _ _ _ ht'
      · exact ht'

/-- The swiss bye loop preserves the invariant on every path. -/
theorem swissByesGo_inv : ∀ (bs : List Match) (t : Tournament), Inv t →
    Inv (swissByesGo t bs).1 := by
  intro bs
  induction bs with
  | nil => intro t h; exact h
  | cons b rest ih =>
    intro t h
    unfold swissByesGo
    cases hpo : getPlayerOpt t b.playerOne with
    | none => exact h
    | some p =>
      apply ih
      exact Inv_setMatch _ _
        (Inv_setPlayer_all _ (fun q hq => PlayerInv_applyByeEntry _ _ _ _ hq) h)

/-- The round-robin bye loop preserves the invariant on every path. -/
theorem rrByesGo_inv : ∀ (bs : List Match) (sk : Bool) (t : Tournament), Inv t →
    Inv (rrByesGo sk t bs).1 := by
  intro bs
  induction bs with
  | nil => intro sk t h; exact h
  | cons b rest ih =>
    intro sk t h
    unfold rrByesGo
    split
    · exact ih sk t h
    · cases hpo : getPlayerOpt t (if b.playerTwo = none then b.playerOne else b.playerTwo) with
      | none => exact h
      | some p =>
        apply ih
        split
        · exact Inv_setMatch _ _
            (Inv_setPlayer_all _ (fun q hq => PlayerInv_applyByeEntry _ _ _ _ hq) h)
        · exact Inv_setMatch _ _
            (Inv_setPlayer_all _ (fun q hq => PlayerInv_applyByeEntry _ _ _ _ hq) h)

/-- The future-round loop preserves the invariant (it only writes match
slots). -/
theorem rrFutureLoop_inv (pid : String) : ∀ (n : Nat) (t : Tournament) (i : Int), Inv t →
    Inv (rrFutureLoop pid t i n).1 := by
  intro n
  induction n with
  | zero => intro t i h; exact h
  | succ n ih =>
    intro t i h
    unfold rrFutureLoop
    cases hf : t.matchList.find? (fun m =>
        decide (m.round = i ∧ (m.playerOne = some pid ∨ m.playerTwo = some pid))) with
    | none => exact h
    | some fm =>
      dsimp only
      exact ih _ _ (Inv_setMatch _ _ h)

/-- A successful `eliminationRemovePlayer` preserves the invariant. -/
theorem eliminationRemovePlayer_inv {t : Tournament} {player : Player} (h : Inv t)
    (hs : (eliminationRemovePlayer t player).2 = none) :
    Inv (eliminationRemovePlayer t player).1 := by
  unfold eliminationRemovePlayer at hs ⊢
  cases hfm : t.matchList.find? (fun m =>
      decide (m.round = t.currentRound ∧
        (m.playerOne = some player.id ∨ m.playerTwo = some player.id))) with
  | none => exact h
  | some m =>
    simp only [hfm] at hs ⊢
    by_cases hact : m.active = true
    · rw [if_pos hact] at hs ⊢
      by_cases hp1 : m.playerOne = some player.id
      · rw [if_pos hp1] at hs ⊢
        cases her : eliminationResult t m.id 0 (ceilHalf t.bestOf) with
        | mk t1 e1 =>
          simp only [her] at hs ⊢
          cases e1 with
          | some e => exact absurd hs (by simp)
          | none =>
            have ht1 : Inv t1 := by
              have hh := eliminationResult_inv h (by rw [her])
              rw [her] at hh
              exact hh
            try dsimp only
            repeat' split
            all_goals try dsimp only
            all_goals repeat' split
            all_goals try dsimp only
            all_goals repeat' split
            all_goals
              repeat first
                | exact ht1
                | apply Inv_setMatch
      · rw [if_neg hp1] at hs ⊢
        cases her : eliminationResult t m.id (ceilHalf t.bestOf) 0 with
        | mk t1 e1 =>
          simp only [her] at hs ⊢
          cases e1 with
          | some e => exact absurd hs (by simp)
          | none =>
            have ht1 : Inv t1 := by
              have hh := eliminationResult_inv h (by rw [her])
              rw [her] at hh
              exact hh
            try dsimp only
            repeat' split
            all_goals try dsimp only
            all_goals repeat' split
            all_goals try dsimp only
            all_goals repeat' split
            all_goals
              repeat first
                | exact ht1
                | apply Inv_setMatch
    · rw [if_neg hact] at hs ⊢
      try dsimp only
      repeat' split
      all_goals try dsimp only
      all_goals repeat' split
      all_goals try dsimp only
      all_goals repeat' split
      all_goals
        repeat first
          | exact h
          | apply Inv_setMatch

/-- A successful `Swiss.removePlayer` preserves the invariant. -/
theorem swissRemovePlayer_inv {t : Tournament} (pid : String) (h : Inv t)
    (hs : (swissRemovePlayer t pid).2 = none) : Inv (swissRemovePlayer t pid).1 := by
  unfold swissRemovePlayer at hs ⊢
  cases hp : getPlayer t pid with
  | none => exact h
  | some player =>
    simp only [hp] at hs ⊢
    by_cases ha : player.active = false
    · rw [if_pos ha] at hs ⊢
      exact h
    · rw [if_neg ha] at hs ⊢
      by_cases hfin : t.status = Status.finished ∨ t.status = Status.aborted
      · rw [if_pos hfin] at hs ⊢
        exact h
      · rw [if_neg hfin] at hs ⊢
        by_cases hreg : t.status = Status.registration
        · rw [if_pos hreg] at hs ⊢
          intro q hq
          exact h q (mem_of_mem_removeFirst hq)
        · rw [if_neg hreg] at hs ⊢
          by_cases hpo : t.status = Status.playoffs
          · rw [if_pos hpo] at hs ⊢
            exact eliminationRemovePlayer_inv h hs
          · rw [if_neg hpo] at hs ⊢
            cases hfm : t.matchList.find? (fun m => decide (m.round = t.currentRound ∧
                (m.playerOne = some player.id ∨ m.playerTwo = some player.id))) with
            | none =>
              simp only [hfm] at hs ⊢
              exact Inv_setPlayer_active _ _ h
            | some m =>
              simp only [hfm] at hs ⊢
              by_cases hact : m.active = true
              · rw [if_pos hact] at hs ⊢
                by_cases hs1 : m.playerOne = some player.id
                · rw [if_pos hs1] at hs ⊢
                  cases hsr : standardResult t m.id 0 (ceilHalf t.bestOf) 0 with
                  | mk t1 e1 =>
                    simp only [hsr] at hs ⊢
                    cases e1 with
                    | some e => exact absurd hs (by simp)
                    | none =>
                      have ht1 : Inv t1 := by
                        have hh := standardResult_inv h (by rw [hsr])
                        rw [hsr] at hh
                        exact hh
                      exact Inv_setPlayer_active _ _ ht1
                · rw [if_neg hs1] at hs ⊢
                  cases hsr : standardResult t m.id (ceilHalf t.bestOf) 0 0 with
                  | mk t1 e1 =>
                    simp only [hsr] at hs ⊢
                    cases e1 with
                    | some e => exact absurd hs (by simp)
                    | none =>
                      have ht1 : Inv t1 := by
                        have hh := standardResult_inv h (by rw [hsr])
                        rw [hsr] at hh
                        exact hh
                      exact Inv_setPlayer_active _ _ ht1
              · rw [if_neg hact] at hs ⊢
                exact Inv_setPlayer_active _ _ h

/-- A successful `RoundRobin.removePlayer` preserves the invariant. -/
theorem rrRemovePlayer_inv {t : Tournament} (pid : String) (h : Inv t)
    (hs : (rrRemovePlayer t pid).2 = none) : Inv (rrRemovePlayer t pid).1 := by
  unfold rrRemovePlayer at hs ⊢
  cases hp : getPlayer t pid with
  | none => exact h
  | some player =>
    simp only [hp] at hs ⊢
    by_cases ha : player.active = false
    · rw [if_pos ha] at hs ⊢
      exact h
    · rw [if_neg ha] at hs ⊢
      by_cases hfin : t.status = Status.finished ∨ t.status = Status.aborted
      · rw [if_pos hfin] at hs ⊢
        exact h
      · rw [if_neg hfin] at hs ⊢
        by_cases hreg : t.status = Status.registration
        · rw [if_pos hreg] at hs ⊢
          intro q hq
          exact h q (mem_of_mem_removeFirst hq)
        · rw [if_neg hreg] at hs ⊢
          by_cases hpo : t.status = Status.playoffs
          · rw [if_pos hpo] at hs ⊢
            exact eliminationRemovePlayer_inv h hs
          · rw [if_neg hpo] at hs ⊢
            have htail : ∀ t1 : Tournament, Inv t1 →
                (match rrFutureLoop pid t1 (t1.currentRound + 1)
                    ((maxRound t1 - (t1.currentRound + 1)).toNat) with
                  | (t2, some e) => (t2, some e)
                  | (t2, none) =>
                    (setPlayer t2 pid (fun q => { q with active := false }), none)).2 = none →
                Inv (match rrFutureLoop pid t1 (t1.currentRound + 1)
                    ((maxRound t1 - (t1.currentRound + 1)).toNat) with
                  | (t2, some e) => (t2, some e)
                  | (t2, none) =>
                    (setPlayer t2 pid (fun q => { q with active := false }), none)).1 := by
              intro t1 ht1 hs1
              cases hlp : rrFutureLoop pid t1 (t1.currentRound + 1)
                  ((maxRound t1 - (t1.currentRound + 1)).toNat) with
              | mk t2 e2 =>
                simp only [hlp] at hs1 ⊢
                cases e2 with
                | some e => exact absurd hs1 (by simp)
                | none =>
                  have ht2 : Inv t2 := by
                    have hh := rrFutureLoop_inv pid
                      ((maxRound t1 - (t1.currentRound + 1)).toNat) t1
                      (t1.currentRound + 1) ht1
                    rw [hlp] at hh
                    exact hh
                  exact Inv_setPlayer_active _ _ ht2
            cases hfm : t.matchList.find? (fun m => decide (m.round = t.currentRound ∧
                (m.playerOne = some player.id ∨ m.playerTwo = some player.id))) with
            | none =>
              simp only [hfm] at hs ⊢
              exact htail t h hs
            | some m =>
              simp only [hfm] at hs ⊢
              by_cases hact : m.active = true
              · rw [if_pos hact] at hs ⊢
                by_cases hs1 : m.playerOne = some player.id
                · rw [if_pos hs1] at hs ⊢
                  cases hsr : standardResult t m.id 0 (ceilHalf t.bestOf) 0 with
                  | mk t1 e1 =>
                    simp only [hsr] at hs ⊢
                    cases e1 with
                    | some e => exact absurd hs (by simp)
                    | none =>
                      have ht1 : Inv t1 := by
                        have hh := standardResult_inv h (by rw [hsr])
                        rw [hsr] at hh
                        exact hh
                      exact htail t1 ht1 hs
                · rw [if_neg hs1] at hs ⊢
                  cases hsr : standardResult t m.id (ceilHalf t.bestOf) 0 0 with
                  | mk t1 e1 =>
                    simp only [hsr] at hs ⊢
                    cases e1 with
                    | some e => exact absurd hs (by simp)
                    | none =>
                      have ht1 : Inv t1 := by
                        have hh := standardResult_inv h (by rw [hsr])
                        rw [hsr] at hh
                        exact hh
                      exact htail t1 ht1 hs
              · rw [if_neg hact] at hs ⊢
                exact htail t h hs

/-- C5 (amended): the per-player scoreboard invariant — `matchPoints` and
`gamePoints` equal the sums over the player's results entries and
`matchCount` equals their number — is preserved by every operation that
completes without error: result reporting (standard and elimination
paths), result erasing, player addition, player removal, and the
bye-materialisation loops run by startEvent/nextRound.  Failed calls can
break it (see the counterexample). -/
theorem c5_invariant_preservation (t : Tournament) (hinv : Inv t) :
    (∀ mid : String, ∀ w1 w2 d : Int, (standardResult t mid w1 w2 d).2 = none →
      Inv (standardResult t mid w1 w2 d).1) ∧
    (∀ mid : String, ∀ w1 w2 : Int, (eliminationResult t mid w1 w2).2 = none →
      Inv (eliminationResult t mid w1 w2).1) ∧
    (∀ mid : String, (eraseResultOuter t mid).2 = none → Inv (eraseResultOuter t mid).1) ∧
    (∀ al pid : String, ∀ s ib : Int, Inv (newPlayer t al pid s ib).1) ∧
    (∀ al pid : String, ∀ s ib : Int, ∀ mb : Bool, ∀ fi : Nat → String,
      Inv (swissAddPlayer t al pid s ib mb fi).1) ∧
    (∀ pid : String, (swissRemovePlayer t pid).2 = none → Inv (swissRemovePlayer t pid).1) ∧
    (∀ pid : String, (rrRemovePlayer t pid).2 = none → Inv (rrRemovePlayer t pid).1) ∧
    Inv (swissProcessByes t).1 ∧
    (∀ sk : Bool, Inv (rrProcessByes sk t).1) :=
  ⟨fun _ _ _ _ hs => standardResult_inv hinv hs,
   fun _ _ _ hs => eliminationResult_inv hinv hs,
   fun _ hs => eraseResultOuter_inv hinv hs,
   fun al pid s ib => newPlayer_inv al pid s ib hinv,
   fun al pid s ib mb fi => swissAddPlayer_inv al pid s ib mb fi hinv,
   fun pid hs => swissRemovePlayer_inv pid hinv hs,
   fun pid hs => rrRemovePlayer_inv pid hinv hs,
   swissByesGo_inv _ t hinv,
   fun sk => rrByesGo_inv _ sk t hinv⟩

/-- C5 witness: the invariant holds on the fixture `c1t` and, by the
theorem, still holds after the successful report of a 1-0 result on its
single match. -/
theorem c5_witness :
    Inv c1t ∧ (standardResult c1t "m" 1 0 0).2 = none ∧
      Inv (standardResult c1t "m" 1 0 0).1 :=
  ⟨by decide, by decide,
   (c5_invariant_preservation c1t (by decide)).1 "m" 1 0 0 (by decide)⟩

/-- C5 counterexample: on `c5ce` the invariant holds, yet erasing the
never-reported match `m` fails with a TypeError only after decrementing
player `a`'s `matchCount`, so the failed call leaves `matchCount = -1`
against an empty results history — the invariant is not preserved by every
operation, only by the error-free ones. -/
theorem c5_counterexample :
    Inv c5ce ∧ (eraseResultOuter c5ce "m").2 = some typeErrorMsg ∧
      ¬ Inv (eraseResultOuter c5ce "m").1 := by
  refine ⟨by decide, by decide, by decide⟩

end C5

end TO
